import Mathlib

/-!
Verification of the Mars Colony hourly simulation engine
(`src/mars_colony.cpp`, the richest variant, which the specification
declares authoritative).

Shallow embedding conventions:
* C++ `double` is modelled as `ℝ` (the daylight model uses `cos`, so the
  carrier must contain transcendental values); decimal literals are read
  as exact real numbers.  IEEE-754 rounding is outside the scope of this
  embedding.
* C++ `int` / `long long` / `size_t` are modelled as `ℤ` or `ℕ`.
* `std::mt19937` is modelled bit-exactly (32-bit words as `ℕ` reduced
  mod `2 ^ 32`); the `uniform_real_distribution` /
  `uniform_int_distribution` adaptors are modelled after the libstdc++
  implementations the program is built against (two raw draws combined
  for a real in `[0,1)`, downscale-with-rejection for integers).
* Fallible operations (`std::map::at` throwing `std::out_of_range`,
  the hard invariant `throw`) are modelled with `Except`; the error
  payload carries the object state left behind when the exception
  propagates.
* Console output is ignored; file I/O is modelled by structured values
  that mirror the line-oriented formats byte for byte at field level.
-/

set_option maxRecDepth 10000

namespace MarsColony

open Classical

noncomputable section

/-- Translation of the C++ helper `clampv`: `std::min(hi, std::max(lo, v))`. -/
def clampv (v lo hi : ℝ) : ℝ := min hi (max lo v)

/-- A C++ `(int)` cast of a `double`: truncation toward zero. -/
def cTrunc (x : ℝ) : ℤ := if 0 ≤ x then Int.floor x else Int.ceil x

/-! ## The mt19937 generator (C++ standard library, bit-exact model)

The state is the 624-word vector plus the extraction index `mti`
(`idx = 624` means "twist before the next extraction", which is the
state right after seeding). -/

/-- State of a `std::mt19937` engine. -/
structure MT where
  words : List ℕ
  idx : ℕ
deriving DecidableEq

/-- Tempering transform of mt19937 (all words are below `2 ^ 32`). -/
def mtTemper (y0 : ℕ) : ℕ :=
  let y1 := Nat.xor y0 (y0 >>> 11)
  let y2 := Nat.xor y1 (Nat.land (y1 <<< 7) 0x9d2c5680)
  let y3 := Nat.xor y2 (Nat.land (y2 <<< 15) 0xefc60000)
  Nat.xor y3 (y3 >>> 18)

/-- One step of the (in-place) twist loop at position `i`. -/
def mtTwistStep (w : List ℕ) (i : ℕ) : List ℕ :=
  let y := Nat.lor (Nat.land (w.getD i 0) 0x80000000)
                   (Nat.land (w.getD ((i + 1) % 624) 0) 0x7fffffff)
  let v := Nat.xor (Nat.xor (w.getD ((i + 397) % 624) 0) (y >>> 1))
                   (if y % 2 = 1 then 0x9908b0df else 0)
  w.set i v

/-- The full twist: the in-place loop over all 624 positions. -/
def mtTwist (w : List ℕ) : List ℕ := (List.range 624).foldl mtTwistStep w

/-- Extract one 32-bit output and advance the engine. -/
def mtNext (m : MT) : ℕ × MT :=
  if 624 ≤ m.idx then
    let w := mtTwist m.words
    (mtTemper (w.getD 0 0), ⟨w, 1⟩)
  else
    (mtTemper (m.words.getD m.idx 0), ⟨m.words, m.idx + 1⟩)

/-- The mt19937 seeding recurrence
`x_i = 1812433253 * (x_(i-1) xor (x_(i-1) >> 30)) + i  (mod 2^32)`. -/
def mtInitWords (seed : ℕ) : List ℕ :=
  let w0 := seed % 2 ^ 32
  let step := fun (p : ℕ × List ℕ) (i : ℕ) =>
    let prev := p.1
    let w := (1812433253 * Nat.xor prev (prev >>> 30) + i) % 2 ^ 32
    (w, w :: p.2)
  ((List.range' 1 623).foldl step (w0, [w0])).2.reverse

attribute [irreducible] mtInitWords

/-- `rng.seed(seed)`: freshly seeded engine (twist pending). -/
def mtInit (seed : ℕ) : MT := ⟨mtInitWords seed, 624⟩

/-- Models libstdc++ `generate_canonical<double, 53>` over mt19937: two raw
32-bit draws combined little-end first, giving a value in `[0, 1)`. -/
def canonicalReal (m : MT) : ℝ × MT :=
  let r1 := mtNext m
  let r2 := mtNext r1.2
  (((r1.1 : ℝ) + (r2.1 : ℝ) * 2 ^ 32) / 2 ^ 64, r2.2)

/-- Models `std::uniform_real_distribution<double>(a, b)` applied to an
mt19937 engine (libstdc++: `canonical * (b - a) + a`). -/
def uniformReal (a b : ℝ) (m : MT) : ℝ × MT :=
  let c := canonicalReal m
  (c.1 * (b - a) + a, c.2)

/-- The rejection loop of libstdc++ `uniform_int_distribution`: draw raw
words until one falls below `past`.  The loop is almost surely finite but
not bounded, so the model carries explicit fuel; with the distributions
this program uses (range at most 61 against a `2^32`-sized engine) a
draw is accepted with overwhelming probability and every concrete
evaluation in this file accepts the first draw. -/
def uniformIntLoop : ℕ → ℕ → MT → ℕ × MT
  | 0, _, m => (0, m)
  | fuel + 1, past, m =>
    let r := mtNext m
    if r.1 < past then (r.1, r.2) else uniformIntLoop fuel past r.2

/-- Models `std::uniform_int_distribution<int>(a, b)` applied to an mt19937
engine, after the libstdc++ downscaling algorithm.  The widening branch
(range wider than the engine's) is unreachable for the parameters this
program uses and is modelled by a single raw draw. -/
def uniformInt (a b : ℤ) (m : MT) : ℤ × MT :=
  let urange : ℕ := (b - a).toNat
  let urngrange : ℕ := 2 ^ 32 - 1
  if urange < urngrange then
    let uerange := urange + 1
    let scaling := urngrange / uerange
    let past := uerange * scaling
    let r := uniformIntLoop 10000 past m
    (a + (r.1 / scaling : ℕ), r.2)
  else
    let r := mtNext m
    (a + (r.1 : ℤ), r.2)

/-! ## Core data model (`mars_colony.cpp`, "Core types") -/

/-- `enum class BuildingType`. -/
inductive BuildingType
  | SolarArray
  | BatteryBank
  | Habitat
  | Greenhouse
  | WaterExtractor
  | Electrolyzer
  | RTG
deriving DecidableEq

/-- `struct BuildingSpec`. -/
structure BuildingSpec where
  name : String
  powerProdDay : ℝ := 0
  powerProdConst : ℝ := 0
  powerCons : ℝ := 0
  waterFlow : ℝ := 0
  oxygenFlow : ℝ := 0
  foodFlow : ℝ := 0
  housing : ℤ := 0
  batteryCapacityDelta : ℝ := 0
  metalsCost : ℤ := 0
  creditsCost : ℤ := 0
  needsPower : Bool := false
  isCriticalLoad : Bool := false

/-- `struct Building`. -/
structure Building where
  type : BuildingType
  active : Bool := true
deriving DecidableEq

/-- `enum class EffectType`. -/
inductive EffectType
  | DustStorm
deriving DecidableEq

/-- `struct ActiveEffect`. -/
structure ActiveEffect where
  type : EffectType
  hoursRemaining : ℤ := 0
  solarMultiplier : ℝ := 1
  description : String := ""

/-- `struct ColonyResources` with the C++ in-class initialisers. -/
structure ColonyResources where
  powerStored : ℝ := 300
  batteryCapacity : ℝ := 600
  water : ℝ := 100
  oxygen : ℝ := 200
  food : ℝ := 100
  metals : ℤ := 200
  credits : ℤ := 1000

/-- `struct LastPowerReport` with the C++ in-class initialisers. -/
structure LastPowerReport where
  producers : ℝ := 0
  criticalDemand : ℝ := 0
  nonCriticalDemand : ℝ := 0
  nonCriticalEff : ℝ := 0
  blackout : Bool := false
  battIn : ℝ := 0
  battOut : ℝ := 0
  chargeCRateLimited : Bool := false
  dischargeCRateLimited : Bool := false

/-- `enum class CommandType` (only `Build` exists). -/
inductive CommandType
  | Build
deriving DecidableEq

/-- `struct Command` (payload `a` is the `int`-cast facility kind). -/
structure Command where
  hour : ℤ := 0
  type : CommandType := .Build
  a : ℤ := 0
deriving DecidableEq

/-- The specs database `getSpec`, entry by entry from the static map
(fields in C++ order: name, powerProdDay, powerProdConst, powerCons,
waterFlow, oxygenFlow, foodFlow, housing, batteryCapacityDelta,
metalsCost, creditsCost, needsPower, isCriticalLoad). -/
def getSpecT : BuildingType → BuildingSpec
  | .SolarArray =>
      { name := "Solar Array", powerProdDay := 25, metalsCost := 50, creditsCost := 100 }
  | .BatteryBank =>
      { name := "Battery Bank", batteryCapacityDelta := 200, metalsCost := 40, creditsCost := 50 }
  | .Habitat =>
      { name := "Habitat", powerCons := 2, housing := 5, metalsCost := 100, creditsCost := 500,
        needsPower := true, isCriticalLoad := true }
  | .Greenhouse =>
      { name := "Greenhouse", powerCons := 12, waterFlow := -2, oxygenFlow := 1, foodFlow := 2,
        metalsCost := 80, creditsCost := 400, needsPower := true }
  | .WaterExtractor =>
      { name := "Water Extractor", powerCons := 8, waterFlow := 3,
        metalsCost := 60, creditsCost := 300, needsPower := true }
  | .Electrolyzer =>
      { name := "Electrolyzer", powerCons := 10, waterFlow := -1, oxygenFlow := 1.5,
        metalsCost := 50, creditsCost := 350, needsPower := true }
  | .RTG =>
      { name := "RTG", powerProdConst := 30, metalsCost := 200, creditsCost := 2000 }

/-- The `static_cast<BuildingType>` of an `int` that is in the range of the
seven declared enumerators; `none` for any other value. -/
def intToBuildingType (t : ℤ) : Option BuildingType :=
  if t = 0 then some .SolarArray
  else if t = 1 then some .BatteryBank
  else if t = 2 then some .Habitat
  else if t = 3 then some .Greenhouse
  else if t = 4 then some .WaterExtractor
  else if t = 5 then some .Electrolyzer
  else if t = 6 then some .RTG
  else none

/-- `static_cast<int>` of a `BuildingType`. -/
def buildingTypeToInt : BuildingType → ℤ
  | .SolarArray => 0
  | .BatteryBank => 1
  | .Habitat => 2
  | .Greenhouse => 3
  | .WaterExtractor => 4
  | .Electrolyzer => 5
  | .RTG => 6

/-- `getSpec` on a raw `int` kind: the `DB.at(t)` lookup succeeds exactly
for the seven declared enumerators and throws `std::out_of_range`
(modelled as `none`) for every other value. -/
def getSpecE (t : ℤ) : Option BuildingSpec := (intToBuildingType t).map getSpecT

/-! ## Game state (`struct GameState`) -/

/-- `struct GameState` with the C++ in-class initialisers.  The RNG is a
member of the state (no global generator).  `rngSeed` is a `uint32_t`. -/
structure GameState where
  hour : ℤ := 0
  population : ℤ := 5
  housingCapacity : ℤ := 5
  morale : ℝ := 0.75
  res : ColonyResources := {}
  buildings : List Building := []
  effects : List ActiveEffect := []
  lastPower : LastPowerReport := {}
  batteryCRate : ℝ := 0.5
  batteryEtaIn : ℝ := 0.92
  batteryEtaOut : ℝ := 0.95
  rng : MT
  rngSeed : ℕ := 0

/-- The `GameState` constructor: `entropy` models the nondeterministic
seed obtained from `std::random_device` (or the clock fallback); it is
cast to `uint32_t` and used to seed the engine.  Every other field takes
its deterministic in-class initialiser. -/
def GameState.init (entropy : ℕ) : GameState :=
  { rng := mtInit entropy, rngSeed := entropy % 2 ^ 32 }

/-- `Game::addBuilding`: push the building, apply housing and battery
capacity deltas, re-clamp the stored charge into the new capacity. -/
def addBuilding (t : BuildingType) (st : GameState) : GameState :=
  let sp := getSpecT t
  let cap := st.res.batteryCapacity + sp.batteryCapacityDelta
  { st with
    buildings := st.buildings ++ [{ type := t, active := true }],
    housingCapacity := st.housingCapacity + sp.housing,
    res := { st.res with
             batteryCapacity := cap,
             powerStored := clampv st.res.powerStored 0 cap } }

/-- `Game::tryBuild`: check costs, deduct them, add the building.  The
boolean is the success report. -/
def tryBuild (t : BuildingType) (st : GameState) : Bool × GameState :=
  let sp := getSpecT t
  if st.res.metals < sp.metalsCost then (false, st)
  else if st.res.credits < sp.creditsCost then (false, st)
  else
    (true,
     addBuilding t
       { st with res := { st.res with
                          metals := st.res.metals - sp.metalsCost,
                          credits := st.res.credits - sp.creditsCost } })

/-- `Game::initStarter`: the eight starter buildings, in construction
order. -/
def initStarter (st : GameState) : GameState :=
  addBuilding .Electrolyzer (addBuilding .Greenhouse (addBuilding .WaterExtractor
    (addBuilding .BatteryBank (addBuilding .SolarArray (addBuilding .SolarArray
      (addBuilding .SolarArray (addBuilding .Habitat st)))))))

/-! ## Time and daylight -/

/-- `SOL_HOURS`. -/
def SOL_HOURS : ℤ := 24

/-- `Game::hourOfSol` (C++ `%` truncates toward zero, hence `Int.tmod`). -/
def hourOfSol (st : GameState) : ℤ := Int.tmod st.hour SOL_HOURS

/-- `Game::sol` (C++ `/` truncates toward zero). -/
def sol (st : GameState) : ℤ := Int.tdiv st.hour SOL_HOURS

/-- `Game::daylightFactor`: raised-cosine twilight ramps around sunrise
(hour 6) and sunset (hour 18) with half-width 1.5; the `PI` literal is
the decimal constant written in the source. -/
def daylightFactor (st : GameState) : ℝ :=
  let TW : ℝ := 1.5
  let h : ℝ := ((hourOfSol st : ℤ) : ℝ)
  let a : ℝ := 6 - TW
  let b : ℝ := 6 + TW
  let c : ℝ := 18 - TW
  let d : ℝ := 18 + TW
  let ease : ℝ → ℝ := fun t =>
    0.5 - 0.5 * Real.cos (clampv t 0 1 * 3.14159265358979323846)
  if h ≤ a ∨ d ≤ h then 0
  else if b ≤ h ∧ h ≤ c then 1
  else if a < h ∧ h < b then ease ((h - a) / (b - a))
  else ease ((d - h) / (d - c))

/-- `Game::stormSolarMultiplier`: product of the multipliers of all
active dust-storm effects (1 when none are active). -/
def stormSolarMultiplier (st : GameState) : ℝ :=
  st.effects.foldl
    (fun m e => if e.type = EffectType.DustStorm then m * e.solarMultiplier else m) 1

/-! ## Colony mechanics constants -/

def PWR_PER_COLONIST : ℝ := 0.3
def WAT_PER_COLONIST : ℝ := 0.10
def O2_PER_COLONIST : ℝ := 0.50
def FOOD_PER_COLONIST : ℝ := 0.05

/-! ## Random events (`Game::maybeSpawnEvents`)

The three trials run in source order (storm, meteoroid, supply drop) and
each consumes its RNG draws exactly as the C++ does.  `forecastMode`
only gates console logging and is therefore not a parameter. -/

/-- The dust-storm description string built at spawn (and rebuilt by the
save loader): `"Dust Storm (solar " + to_string(int(mult*100)) + "%)"`. -/
def stormDescription (mult : ℝ) : String :=
  "Dust Storm (solar " ++ toString (cTrunc (mult * 100)) ++ "%)"

/-- The dust-storm trial: on an 18% roll, spawn a storm of 36 to 96 hours
with solar multiplier 0.2 to 0.6.  There is no check whether a storm is
already active. -/
def stormStep (st : GameState) : GameState :=
  let r := uniformReal 0 1 st.rng
  let st1 := { st with rng := r.2 }
  if r.1 < 0.18 then
    let rd := uniformInt 36 96 st1.rng
    let rm := uniformReal 0.2 0.6 rd.2
    let e : ActiveEffect :=
      { type := .DustStorm, hoursRemaining := rd.1, solarMultiplier := rm.1,
        description := stormDescription rm.1 }
    { st1 with rng := rm.2, effects := st1.effects ++ [e] }
  else st1

/-- The meteoroid trial: on a 6% roll (the roll is consumed before the
short-circuited emptiness test), destroy a uniformly chosen non-battery
building, clamp housing at zero, apply the morale penalty. -/
def meteorStep (st : GameState) : GameState :=
  let r := uniformReal 0 1 st.rng
  let st1 := { st with rng := r.2 }
  if r.1 < 0.06 ∧ st1.buildings ≠ [] then
    let candidates :=
      (st1.buildings.enum.filter
        (fun ib => ib.2.type ≠ BuildingType.BatteryBank)).map Prod.fst
    if candidates = [] then st1
    else
      let rp := uniformInt 0 ((candidates.length : ℤ) - 1) st1.rng
      let idx := candidates.getD rp.1.toNat 0
      let b := st1.buildings.getD idx { type := .SolarArray, active := true }
      let sp := getSpecT b.type
      { st1 with
        rng := rp.2,
        housingCapacity := max (st1.housingCapacity - sp.housing) 0,
        buildings := st1.buildings.eraseIdx idx,
        morale := clampv (st1.morale - 0.08) 0 1 }
  else st1

/-- The supply-drop trial: on a 12% roll, add the fixed stock bonuses. -/
def supplyStep (st : GameState) : GameState :=
  let r := uniformReal 0 1 st.rng
  let st1 := { st with rng := r.2 }
  if r.1 < 0.12 then
    { st1 with res := { st1.res with
                        water := st1.res.water + 60,
                        oxygen := st1.res.oxygen + 120,
                        food := st1.res.food + 80,
                        metals := st1.res.metals + 60,
                        credits := st1.res.credits + 400 } }
  else st1

/-- `Game::maybeSpawnEvents`: fires only at a cycle boundary
(`hourOfSol = 0`), then runs the three trials in order. -/
def maybeSpawnEvents (st : GameState) : GameState :=
  if hourOfSol st ≠ 0 then st else supplyStep (meteorStep (stormStep st))

/-- `Game::tickEffects`: decrement positive remaining durations, then
remove every effect whose remaining duration is no longer positive
(erase-remove idiom). -/
def tickEffects (st : GameState) : GameState :=
  let dec := st.effects.map
    (fun e => if 0 < e.hoursRemaining then { e with hoursRemaining := e.hoursRemaining - 1 } else e)
  { st with effects := dec.filter (fun e => decide (0 < e.hoursRemaining)) }

/-! ## Non-critical dispatch optimizer (`Game::chooseNonCriticalLoads`)

The DP table of the C++ is over prefixes `dp[i][c]` with reconstruction
from item `n` down to 1; the embedding recurses over the item list with
the head playing the role of the *last* C++ item (so the optimizer is
applied to the reversed item list), which reproduces both the table
recurrence and the reconstruction, including its strict-improvement tie
break. -/

/-- One knapsack item: building index, discretised power weight, utility. -/
structure KItem where
  idx : ℕ
  w : ℕ
  v : ℝ

/-- Total discretised weight of a selection. -/
def kWeightSum (L : List KItem) : ℕ := (L.map KItem.w).sum

/-- Total utility of a selection. -/
def kValueSum (L : List KItem) : ℝ := (L.map KItem.v).sum

/-- Value of the DP table cell: `dpVal (x :: pre) c` is `dp[i][c]` where
`x` is item `i` and `pre` the earlier items. -/
def dpVal : List KItem → ℕ → ℝ
  | [], _ => 0
  | x :: pre, c =>
    if x.w ≤ c then max (dpVal pre c) (dpVal pre (c - x.w) + x.v) else dpVal pre c

/-- Reconstruction by back-tracking the take/skip table: item `i` is taken
at capacity `c` exactly when taking it strictly improves on `dp[i-1][c]`
(the C++ `cand > dp[i][c]` test that sets `take[i][c]`). -/
def knapSel : List KItem → ℕ → List KItem
  | [], _ => []
  | x :: pre, c =>
    if x.w ≤ c ∧ dpVal pre c < dpVal pre (c - x.w) + x.v then
      x :: knapSel pre (c - x.w)
    else knapSel pre c

/-- Scarcity-weighted utility of a facility spec: positive resource
outputs weighted by scarcity, softly penalised by power cost. -/
def knapUtility (wFood wO2 wWater : ℝ) (sp : BuildingSpec) : ℝ :=
  ((if 0 < sp.foodFlow then wFood * sp.foodFlow else 0) +
   (if 0 < sp.oxygenFlow then wO2 * sp.oxygenFlow else 0) +
   (if 0 < sp.waterFlow then wWater * sp.waterFlow else 0)) /
  (1 + 0.05 * sp.powerCons)

/-- The item list built by `chooseNonCriticalLoads`: active, powered,
non-critical consumers with positive discretised weight and positive
utility, in building order (`scale = 10`). -/
def knapItems (st : GameState) (wFood wO2 wWater : ℝ) : List KItem :=
  st.buildings.enum.filterMap (fun ib =>
    let sp := getSpecT ib.2.type
    if ib.2.active = false then none
    else if ¬ sp.needsPower = true ∨ sp.isCriticalLoad = true ∨ sp.powerCons ≤ 0 then none
    else
      let util := knapUtility wFood wO2 wWater sp
      let weight := cTrunc (sp.powerCons * 10 + 0.5)
      if weight ≤ 0 then none
      else if 0 < util then some ⟨ib.1, weight.toNat, util⟩ else none)

/-- The discretised capacity `(int)(max(0.0, powerBudget) * scale + 0.5)`. -/
def knapCapacity (powerBudget : ℝ) : ℤ := cTrunc (max 0 powerBudget * 10 + 0.5)

/-- The selected items (before projecting to indices). -/
def knapSelOf (st : GameState) (powerBudget wFood wO2 wWater : ℝ) : List KItem :=
  let capacity := knapCapacity powerBudget
  let items := knapItems st wFood wO2 wWater
  if capacity ≤ 0 ∨ items = [] then []
  else knapSel items.reverse capacity.toNat

/-- `Game::chooseNonCriticalLoads`: the chosen building indices (the C++
pushes them while back-tracking from the last item, which is the order
`knapSel` produces on the reversed item list). -/
def chooseNonCriticalLoads (st : GameState) (powerBudget wFood wO2 wWater : ℝ) : List ℕ :=
  (knapSelOf st powerBudget wFood wO2 wWater).map KItem.idx

/-! ## Power and resource update (`Game::simulateHour`) -/

/-- Step 1 of `simulateHour`: total production from constant sources and
daylight-and-storm-scaled solar sources. -/
def producersOf (daylight stormMult : ℝ) (buildings : List Building) : ℝ :=
  buildings.foldl (fun acc b =>
    if b.active then
      let sp := getSpecT b.type
      let acc1 := if 0 < sp.powerProdConst then acc + sp.powerProdConst else acc
      if 0 < sp.powerProdDay then acc1 + sp.powerProdDay * daylight * stormMult else acc1
    else acc) 0

/-- Step 2 of `simulateHour`, critical part: per-colonist baseline plus
active critical facility draws. -/
def criticalOf (st : GameState) : ℝ :=
  st.buildings.foldl (fun acc b =>
    if b.active then
      let sp := getSpecT b.type
      if sp.powerCons ≤ 0 ∨ ¬ sp.needsPower = true then acc
      else if sp.isCriticalLoad then acc + sp.powerCons else acc
    else acc) ((st.population : ℝ) * PWR_PER_COLONIST)

/-- Step 2 of `simulateHour`, non-critical part: potential draw of active
non-critical consumers. -/
def noncritPotentialOf (st : GameState) : ℝ :=
  st.buildings.foldl (fun acc b =>
    if b.active then
      let sp := getSpecT b.type
      if sp.powerCons ≤ 0 ∨ ¬ sp.needsPower = true then acc
      else if sp.isCriticalLoad then acc else acc + sp.powerCons
    else acc) 0

/-- `hoursOf` helper: hours of supply left (9999 for a non-positive
consumption rate). -/
def hoursOf (store ratePerHour : ℝ) : ℝ :=
  if ratePerHour ≤ 0 then 9999 else store / ratePerHour

/-- `weightFromHours`: `1 + 72 / (h + 1)`. -/
def weightFromHours (h : ℝ) : ℝ := 1 + 72 / (h + 1)

/-- Step 4 of `simulateHour`: the non-critical budget left after reserving
deliverable battery power for the critical gap. -/
def nonCritBudgetCalc (producers critical deliverableMax : ℝ) : ℝ :=
  let surplusAfterCritical := max 0 (producers - critical)
  let deficitAfterCritical := max 0 (critical - producers)
  let reservedForCritical := min deficitAfterCritical deliverableMax
  let remainingDeliverable := max 0 (deliverableMax - reservedForCritical)
  surplusAfterCritical + remainingDeliverable

/-- Result of the battery dispatch (step 6 of `simulateHour`). -/
structure DispatchResult where
  soc : ℝ
  battIn : ℝ
  battOut : ℝ
  netAfter : ℝ
  chargeCRateLimited : Bool
  dischargeCRateLimited : Bool

/-- Step 6 of `simulateHour`: C-rate and efficiency limited charge or
discharge of the surplus or deficit left after the selected loads. -/
def batteryDispatch (cap soc0 cRate etaIn etaOut netAfterLoads : ℝ) : DispatchResult :=
  let chargePowerLimit := cap * cRate
  let dischargePowerLimit := cap * cRate
  if 1e-9 < netAfterLoads then
    let byCRate := chargePowerLimit
    let byRoom := (cap - soc0) / max 1e-12 etaIn
    let canInput := max 0 (min netAfterLoads (min byCRate byRoom))
    { soc := soc0 + canInput * etaIn, battIn := canInput, battOut := 0,
      netAfter := netAfterLoads - canInput,
      chargeCRateLimited :=
        if canInput < netAfterLoads - 1e-9 ∧ canInput < byCRate - 1e-9 then true else false,
      dischargeCRateLimited := false }
  else if netAfterLoads < -1e-9 then
    let deficit := -netAfterLoads
    let deliverByCR := dischargePowerLimit
    let deliverBySo := soc0 * etaOut
    let delivered := max 0 (min deficit (min deliverByCR deliverBySo))
    { soc := soc0 - delivered / max 1e-12 etaOut, battIn := 0, battOut := delivered,
      netAfter := netAfterLoads + delivered,
      chargeCRateLimited := false,
      dischargeCRateLimited :=
        if delivered < deficit - 1e-9 ∧ delivered < deliverByCR - 1e-9 then true else false }
  else
    { soc := soc0, battIn := 0, battOut := 0, netAfter := netAfterLoads,
      chargeCRateLimited := false, dischargeCRateLimited := false }

/-- Steps 7 and 8 of `simulateHour`: aggregate water, oxygen and food
deltas from buildings (gated by power dispatch) and population draw. -/
def resourceFlows (st : GameState) (blackout : Bool) (runFlags : List Bool) : ℝ × ℝ × ℝ :=
  st.buildings.enum.foldl (fun acc ib =>
    let b := ib.2
    let sp := getSpecT b.type
    if b.active = false then acc
    else if sp.waterFlow = 0 ∧ sp.oxygenFlow = 0 ∧ sp.foodFlow = 0 then acc
    else
      let eff : ℝ :=
        if sp.needsPower then
          if sp.isCriticalLoad then (if blackout then 0 else 1)
          else (if blackout = false ∧ runFlags.getD ib.1 false = true then 1 else 0)
        else 1
      (acc.1 + sp.waterFlow * eff, acc.2.1 + sp.oxygenFlow * eff, acc.2.2 + sp.foodFlow * eff))
    ((0 : ℝ), (0 : ℝ), (0 : ℝ))

/-- Step 3 of `simulateHour`: the pre-tick food scarcity weight. -/
def scarcityWFood (st : GameState) : ℝ :=
  weightFromHours (hoursOf st.res.food ((st.population : ℝ) * FOOD_PER_COLONIST))

/-- Step 3 of `simulateHour`: the pre-tick water scarcity weight. -/
def scarcityWWater (st : GameState) : ℝ :=
  weightFromHours (hoursOf st.res.water ((st.population : ℝ) * WAT_PER_COLONIST))

/-- Step 3 of `simulateHour`: the pre-tick oxygen scarcity weight. -/
def scarcityWO2 (st : GameState) : ℝ :=
  weightFromHours (hoursOf st.res.oxygen ((st.population : ℝ) * O2_PER_COLONIST))

/-- The production of step 1 applied to the current state. -/
def simProducers (st : GameState) : ℝ :=
  producersOf (daylightFactor st) (stormSolarMultiplier st) st.buildings

/-- Step 4 of `simulateHour`: deliverable battery power this hour,
`max(0, min(capacity * cRate, powerStored * etaOut))`. -/
def deliverableMaxOf (st : GameState) : ℝ :=
  max 0 (min (st.res.batteryCapacity * st.batteryCRate) (st.res.powerStored * st.batteryEtaOut))

/-- Step 4 of `simulateHour` applied to the current state. -/
def simNonCritBudget (st : GameState) : ℝ :=
  nonCritBudgetCalc (simProducers st) (criticalOf st) (deliverableMaxOf st)

/-- Step 5 of `simulateHour`: the chosen non-critical building indices
(the optimizer runs only on a positive budget). -/
def simChosen (st : GameState) : List ℕ :=
  if 0 < simNonCritBudget st then
    chooseNonCriticalLoads st (simNonCritBudget st) (scarcityWFood st) (scarcityWO2 st)
      (scarcityWWater st)
  else []

/-- Step 5 of `simulateHour`: the per-building run flags. -/
def simRunFlags (st : GameState) : List Bool :=
  (simChosen st).foldl (fun fl i => fl.set i true) (List.replicate st.buildings.length false)

/-- Step 5 of `simulateHour`: total power of the chosen loads. -/
def simNoncritUsed (st : GameState) : ℝ :=
  (simChosen st).foldl
    (fun acc i =>
      acc + (getSpecT (st.buildings.getD i { type := .SolarArray, active := true }).type).powerCons)
    0

/-- Step 6 of `simulateHour`: net energy balance after the chosen loads. -/
def simNetAfterLoads (st : GameState) : ℝ :=
  simProducers st - criticalOf st - simNoncritUsed st

/-- Step 6 of `simulateHour` applied to the current state. -/
def simDispatch (st : GameState) : DispatchResult :=
  batteryDispatch st.res.batteryCapacity st.res.powerStored st.batteryCRate st.batteryEtaIn
    st.batteryEtaOut (simNetAfterLoads st)

/-- The tick's blackout flag: still in deficit after maximal discharge. -/
def simBlackout (st : GameState) : Bool :=
  if (simDispatch st).netAfter < -1e-6 then true else false

/-- `Game::simulateHour`, also exposing the non-critical run flags chosen
in step 5 (a local array in the C++); the numbered steps above are the
bodies of the corresponding source sections. -/
def simulateHourRun (st : GameState) : GameState × List Bool :=
  let producers := simProducers st
  let critical := criticalOf st
  let noncritPotential := noncritPotentialOf st
  let cap := st.res.batteryCapacity
  let runFlags := simRunFlags st
  let noncritUsed := simNoncritUsed st
  let d := simDispatch st
  let powerStored1 := clampv d.soc 0 cap
  let blackout : Bool := simBlackout st
  let flows := resourceFlows st blackout runFlags
  let water1 := max 0 (st.res.water + (flows.1 - (st.population : ℝ) * WAT_PER_COLONIST))
  let oxygen1 := max 0 (st.res.oxygen + (flows.2.1 - (st.population : ℝ) * O2_PER_COLONIST))
  let food1 := max 0 (st.res.food + (flows.2.2 - (st.population : ℝ) * FOOD_PER_COLONIST))
  let hFood := hoursOf food1 ((st.population : ℝ) * FOOD_PER_COLONIST)
  let hWater := hoursOf water1 ((st.population : ℝ) * WAT_PER_COLONIST)
  let hO2 := hoursOf oxygen1 ((st.population : ℝ) * O2_PER_COLONIST)
  let md1 : ℝ := if blackout then -0.04 else 0
  let md2 := if hFood < 24 then md1 - 0.02 else md1
  let md3 := if hWater < 24 then md2 - 0.02 else md2
  let md4 := if hO2 < 24 then md3 - 0.03 else md3
  let md5 :=
    if blackout = false ∧ 72 < hFood ∧ 72 < hWater ∧ 72 < hO2 ∧ cap * 0.5 < powerStored1 then
      md4 + 0.01
    else md4
  let md6 := if st.housingCapacity < st.population then md5 - 0.02 else md5
  let report : LastPowerReport :=
    { producers := producers, criticalDemand := critical, nonCriticalDemand := noncritPotential,
      nonCriticalEff :=
        if 0 < noncritPotential then
          (if blackout then 0 else noncritUsed / noncritPotential)
        else 0,
      blackout := blackout, battIn := d.battIn, battOut := d.battOut,
      chargeCRateLimited := d.chargeCRateLimited,
      dischargeCRateLimited := d.dischargeCRateLimited }
  let resOut : ColonyResources :=
    { st.res with
      powerStored := powerStored1, water := water1, oxygen := oxygen1, food := food1 }
  let stOut : GameState :=
    { st with res := resOut, morale := clampv (st.morale + md6) 0 1, lastPower := report }
  (stOut, runFlags)

/-- `Game::simulateHour`. -/
def simulateHour (st : GameState) : GameState := (simulateHourRun st).1

/-! ## The `Game` object, command queue and hourly loop

The recording bookkeeping (`recordPath`, `recording`, `replayPath`, ...)
only drives console messages and append-only file output and is omitted;
the fields that influence simulation behaviour are kept. -/

/-- `class Game`: owned state, forecast flag, invariant mode and the
time-indexed pending command multimap (modelled as a list kept stably
sorted by hour, which is exactly the multimap's iteration order). -/
structure Game where
  s : GameState
  forecastMode : Bool := false
  hardFailOnInvariant : Bool := false
  pendingCommands : List Command := []

/-- `std::multimap::emplace`: insert after every entry whose key is less
than or equal to the new key (ties keep insertion order). -/
def insertCmd (c : Command) : List Command → List Command
  | [] => [c]
  | d :: q => if d.hour ≤ c.hour then d :: insertCmd c q else c :: d :: q

/-- `equal_range(hourNow)`: the commands scheduled at exactly that hour,
in queue order. -/
def cmdsAt (h : ℤ) (q : List Command) : List Command :=
  q.filter (fun c => decide (c.hour = h))

/-- `erase(range)`: drop the commands scheduled at that hour. -/
def eraseCmdsAt (h : ℤ) (q : List Command) : List Command :=
  q.filter (fun c => decide (¬ c.hour = h))

/-- `Game::setSeed` (the argument is a `uint32_t`). -/
def Game.setSeed (seed : ℕ) (g : Game) : Game :=
  { g with s := { g.s with rngSeed := seed % 2 ^ 32, rng := mtInit (seed % 2 ^ 32) } }

/-- The `Game` constructor: fresh state (with nondeterministic entropy)
plus the starter buildings. -/
def Game.init (entropy : ℕ) : Game :=
  { s := initStarter (GameState.init entropy) }

/-- `Game::submit` for one command (recording side effects dropped),
iterated over a list of player orders in submission order. -/
def queueCommands (K : List Command) (g : Game) : Game :=
  K.foldl (fun g1 c => { g1 with pendingCommands := insertCmd c g1.pendingCommands }) g

/-- Errors that can propagate out of the hourly loop as C++ exceptions. -/
inductive EngineError
  | badBuildKind
  | invariantViolation
deriving DecidableEq

/-- The body of the `applyCommandsForHour` loop over one hour's commands:
each build either succeeds or is reported failed (both consume it), and
an out-of-range kind makes `getSpec`'s `map::at` throw, leaving the
state mutated by the earlier commands of the hour (`.error` carries it). -/
def applyCmdList : List Command → GameState → Except GameState GameState
  | [], st => .ok st
  | c :: rest, st =>
    match c.type with
    | .Build =>
      match intToBuildingType c.a with
      | none => .error st
      | some t => applyCmdList rest (tryBuild t st).2

/-- `Game::applyCommandsForHour`: apply all commands scheduled for the
current hour, then erase them from the queue.  On a thrown
`std::out_of_range` the erase is never reached, so the queue is left
unchanged and the exception propagates with the partially mutated
state. -/
def applyCommandsForHour (g : Game) : Except (EngineError × Game) Game :=
  match applyCmdList (cmdsAt g.s.hour g.pendingCommands) g.s with
  | .error st => .error (.badBuildKind, { g with s := st })
  | .ok st =>
    .ok { g with s := st, pendingCommands := eraseCmdsAt g.s.hour g.pendingCommands }

/-- `Game::checkInvariants` as the proposition it decides (the `finite`
checks are vacuous over `ℝ`). -/
def checkInvariants (st : GameState) : Prop :=
  -1e-9 ≤ st.res.powerStored ∧
  -1e-9 ≤ st.res.batteryCapacity ∧
  st.res.powerStored ≤ st.res.batteryCapacity + 1e-6 ∧
  -1e-9 ≤ st.res.water ∧ -1e-9 ≤ st.res.oxygen ∧ -1e-9 ≤ st.res.food ∧
  0 ≤ st.population ∧ 0 ≤ st.housingCapacity ∧
  -1e-9 ≤ st.morale ∧ st.morale ≤ 1 + 1e-9 ∧
  0 ≤ st.batteryCRate ∧
  (0 < st.batteryEtaIn ∧ st.batteryEtaIn ≤ 1) ∧
  (0 < st.batteryEtaOut ∧ st.batteryEtaOut ≤ 1) ∧
  (-1e-6 ≤ st.lastPower.nonCriticalEff ∧ st.lastPower.nonCriticalEff ≤ 1 + 1e-6) ∧
  -1e-9 ≤ st.lastPower.battIn ∧ -1e-9 ≤ st.lastPower.battOut ∧
  0 ≤ st.hour

/-- One iteration of the `advanceHours` loop: commands, events,
simulation, effect expiry, the invariant gate, then `++hour`.  The
invariant `throw` (hard mode) fires before the hour is incremented. -/
def stepHour (g : Game) : Except (EngineError × Game) Game :=
  match applyCommandsForHour g with
  | .error e => .error e
  | .ok g1 =>
    let g2 := { g1 with s := tickEffects (simulateHour (maybeSpawnEvents g1.s)) }
    if ¬ checkInvariants g2.s ∧ g2.hardFailOnInvariant = true then
      .error (.invariantViolation, g2)
    else
      .ok { g2 with s := { g2.s with hour := g2.s.hour + 1 } }

/-- `Game::advanceHours` for a non-negative number of hours. -/
def advanceHours : ℕ → Game → Except (EngineError × Game) Game
  | 0, g => .ok g
  | n + 1, g =>
    match stepHour g with
    | .error e => .error e
    | .ok g1 => advanceHours n g1

/-! ## Forecast (`Game::forecastHours`) -/

/-- One collected row of the forecast time series. -/
structure ForecastRow where
  batt : ℝ
  prod : ℝ
  crit : ℝ
  noncritRun : ℝ
  battIn : ℝ
  battOut : ℝ
  blackout : Bool
  solv : ℤ
  hourv : ℤ

/-- The row pushed after each forecast tick (after `++s.hour`). -/
def forecastRowOf (st : GameState) : ForecastRow :=
  { batt := st.res.powerStored, prod := st.lastPower.producers,
    crit := st.lastPower.criticalDemand,
    noncritRun := st.lastPower.nonCriticalDemand * st.lastPower.nonCriticalEff,
    battIn := st.lastPower.battIn, battOut := st.lastPower.battOut,
    blackout := st.lastPower.blackout,
    solv := Int.tdiv st.hour SOL_HOURS, hourv := Int.tmod st.hour SOL_HOURS }

/-- The forecast loop: commands, simulation and effect expiry but no
event spawning and no invariant gate; a thrown command error propagates
immediately with the mutated object. -/
def forecastLoop : ℕ → Game → Except (EngineError × Game) (Game × List ForecastRow)
  | 0, g => .ok (g, [])
  | n + 1, g =>
    match applyCommandsForHour g with
    | .error e => .error e
    | .ok g1 =>
      let g2 := { g1 with s := tickEffects (simulateHour g1.s) }
      let g3 := { g2 with s := { g2.s with hour := g2.s.hour + 1 } }
      match forecastLoop n g3 with
      | .error e => .error e
      | .ok p => .ok (p.1, forecastRowOf g3.s :: p.2)

/-- `Game::forecastHours`: back up the state and queue, run the look-ahead
with `forecastMode` on, then restore.  The restoration is written on the
success path only: if the loop throws (unknown build kind drained from
the queue), the error propagates with the state as mutated so far and
`forecastMode` still set. -/
def forecastHours (g : Game) (hours : ℕ) : Except (EngineError × Game) (Game × List ForecastRow) :=
  match forecastLoop hours { g with forecastMode := true } with
  | .error e => .error e
  | .ok p =>
    let restored : Game :=
      { p.1 with
        forecastMode := g.forecastMode, s := g.s, pendingCommands := g.pendingCommands }
    .ok (restored, p.2)

/-! ## Persistence (`Game::saveToFile` / `Game::loadFromFile`)

The versioned line-oriented text format is modelled at the level of its
schema: one `SaveItem` per key line, numeric fields carried exactly (the
C++ writes 17 significant digits, which round-trips doubles exactly, and
the mt19937 `operator<<`/`operator>>` round-trip the engine state
exactly).  A `rngstateK` with `ok = false` models an `rngstate` line
whose extraction fails (truncated state): the stream's failbit leaves
the target engine unchanged. -/

/-- The save file header line `MARS_SAVE <version>`. -/
structure SaveFileHeader where
  tag : String
  version : ℤ
deriving DecidableEq

/-- One key line (or block) of a save file body. -/
inductive SaveItem
  | hourK (v : ℤ)
  | populationK (v : ℤ)
  | housingK (v : ℤ)
  | moraleK (v : ℝ)
  | resK (powerStored batteryCapacity water oxygen food : ℝ) (metals credits : ℤ)
  | buildingsK (entries : List (String × ℤ × ℤ))
  | effectsK (entries : List (String × ℤ × ℤ × ℝ))
  | lastpowerK (producers criticalDemand nonCriticalDemand nonCriticalEff : ℝ) (blackoutInt : ℤ)
  | batteryK (cRate etaIn etaOut : ℝ)
  | rngseedK (v : ℕ)
  | rngstateK (ok : Bool) (rng : MT)
  | endK
  | unknownK

/-- A save file: header plus body lines in file order. -/
structure SaveFile where
  header : SaveFileHeader
  items : List SaveItem

/-- `Game::saveToFile`: the exact v2 writer output for a state. -/
def saveGame (st : GameState) : SaveFile :=
  { header := { tag := "MARS_SAVE", version := 2 },
    items :=
      [ .hourK st.hour,
        .populationK st.population,
        .housingK st.housingCapacity,
        .moraleK st.morale,
        .resK st.res.powerStored st.res.batteryCapacity st.res.water st.res.oxygen st.res.food
          st.res.metals st.res.credits,
        .buildingsK (st.buildings.map (fun b =>
          ("b", buildingTypeToInt b.type, if b.active then (1 : ℤ) else 0))),
        .effectsK (st.effects.map (fun e => ("e", (0 : ℤ), e.hoursRemaining, e.solarMultiplier))),
        .lastpowerK st.lastPower.producers st.lastPower.criticalDemand
          st.lastPower.nonCriticalDemand st.lastPower.nonCriticalEff
          (if st.lastPower.blackout then 1 else 0),
        .batteryK st.batteryCRate st.batteryEtaIn st.batteryEtaOut,
        .rngseedK st.rngSeed,
        .rngstateK true st.rng,
        .endK ] }

/-- The loader's `static_cast<BuildingType>` of an arbitrary saved `int`.
For an out-of-range value the C++ produces an invalid enumerator (which
only explodes later inside `getSpec`); the embedding's `BuildingType`
cannot hold such a value, so the cast defaults (no claim exercises this
case: program-written saves only contain kinds 0 to 6). -/
def castToBuildingType (t : ℤ) : BuildingType :=
  (intToBuildingType t).getD .SolarArray

/-- The `buildings` block reader: `n` lines `b <kind> <active>`; any other
tag aborts the whole load with an explicit failure. -/
def loadBuildingEntries : List (String × ℤ × ℤ) → Option (List Building)
  | [] => some []
  | (tg, t, act) :: rest =>
    if tg = "b" then
      (loadBuildingEntries rest).map
        (fun bs => { type := castToBuildingType t, active := act ≠ 0 } :: bs)
    else none

/-- The `effects` block reader: `n` lines `e <type> <hours> <mult>`; the
type index is ignored (only dust storms exist) and the description is
rebuilt from the multiplier; any other tag aborts the load. -/
def loadEffectEntries : List (String × ℤ × ℤ × ℝ) → Option (List ActiveEffect)
  | [] => some []
  | (tg, _t, hrs, mult) :: rest =>
    if tg = "e" then
      (loadEffectEntries rest).map
        (fun es => { type := EffectType.DustStorm, hoursRemaining := hrs,
                     solarMultiplier := mult,
                     description := stormDescription mult } :: es)
    else none

/-- The `loadFromFile` key loop over a fresh `GameState`.  Note the C++
`while (ifs >> key)` structure: reaching end of input *without* seeing
`end` simply leaves the loop and the partially filled state is
committed, so an exhausted item list returns `some`. -/
def loadLoop : List SaveItem → GameState → Option GameState
  | [], st => some st
  | item :: rest, st =>
    match item with
    | .hourK v => loadLoop rest { st with hour := v }
    | .populationK v => loadLoop rest { st with population := v }
    | .housingK v => loadLoop rest { st with housingCapacity := v }
    | .moraleK v => loadLoop rest { st with morale := v }
    | .resK ps cap w o f m c =>
      loadLoop rest
        { st with res := { powerStored := ps, batteryCapacity := cap, water := w,
                           oxygen := o, food := f, metals := m, credits := c } }
    | .buildingsK entries =>
      match loadBuildingEntries entries with
      | none => none
      | some bs => loadLoop rest { st with buildings := bs }
    | .effectsK entries =>
      match loadEffectEntries entries with
      | none => none
      | some es => loadLoop rest { st with effects := es }
    | .lastpowerK p c n e b =>
      loadLoop rest
        { st with lastPower := { st.lastPower with
                                 producers := p, criticalDemand := c, nonCriticalDemand := n,
                                 nonCriticalEff := e, blackout := b ≠ 0 } }
    | .batteryK cr ei eo =>
      loadLoop rest { st with batteryCRate := cr, batteryEtaIn := ei, batteryEtaOut := eo }
    | .rngseedK v => loadLoop rest { st with rngSeed := v % 2 ^ 32 }
    | .rngstateK ok m => loadLoop rest (if ok then { st with rng := m } else st)
    | .endK => some st
    | .unknownK => loadLoop rest st

/-- `Game::loadFromFile` acting on the live state: a bad header fails
before anything else; otherwise the body is parsed into a fresh
`GameState` (constructed with nondeterministic `entropy`) and committed
only when the loop finishes.  The returned boolean is the C++ return
value; the returned state is the live state afterwards. -/
def loadFromFile (file : SaveFile) (live : GameState) (entropy : ℕ) : Bool × GameState :=
  if file.header.tag ≠ "MARS_SAVE" ∨ (file.header.version ≠ 1 ∧ file.header.version ≠ 2) then
    (false, live)
  else
    match loadLoop file.items (GameState.init entropy) with
    | none => (false, live)
    | some loaded => (true, loaded)

/-! ## Replay loading (`Game::loadReplayFile`, command section) -/

/-- One parsed command-section line of a replay file. -/
inductive ReplayLine
  | hLine (hour : ℤ) (what : String) (t : ℤ)
  | buildLine (hour : ℤ) (t : ℤ)
  | endLine
  | otherLine

/-- The command-section loop of `loadReplayFile`: every well-formed build
line is enqueued as-is; the facility kind `t` is taken verbatim with no
range validation. -/
def loadReplayCommands : List ReplayLine → List Command → List Command
  | [], q => q
  | l :: rest, q =>
    match l with
    | .hLine h what t =>
      if what = "build" then
        loadReplayCommands rest (insertCmd { hour := h, type := .Build, a := t } q)
      else loadReplayCommands rest q
    | .buildLine h t =>
      loadReplayCommands rest (insertCmd { hour := h, type := .Build, a := t } q)
    | .endLine => q
    | .otherLine => loadReplayCommands rest q

/-! ## Deterministic checksum

Modelled from `src/src/determinism/state_hash.hpp` (FNV-1a over
little-endian bytes).  The byte images of the `double` fields are not
representable in the real-number embedding, so the checksum folds the
integer-valued numeric fields; the determinism claim only needs that the
checksum is a pure function of the final state. -/

/-- One FNV-1a step `h := (h xor byte) * prime  (mod 2^64)`. -/
def fnv1a64Step (h b : ℕ) : ℕ := (Nat.xor h b * 1099511628211) % 2 ^ 64

/-- FNV-1a over a byte list. -/
def fnv1a64Bytes (h : ℕ) (bs : List ℕ) : ℕ := bs.foldl fnv1a64Step h

/-- Little-endian bytes of a 64-bit word (`u64_le`). -/
def u64leBytes (v : ℕ) : List ℕ :=
  [v % 256, v / 256 % 256, v / 256 ^ 2 % 256, v / 256 ^ 3 % 256,
   v / 256 ^ 4 % 256, v / 256 ^ 5 % 256, v / 256 ^ 6 % 256, v / 256 ^ 7 % 256]

/-- A signed integer as a 64-bit two's-complement word. -/
def toU64 (v : ℤ) : ℕ := (v % 2 ^ 64).toNat

/-- The 64-bit state checksum over the canonical little-endian byte
representation of the integer-valued state fields. -/
def stateChecksum (st : GameState) : ℕ :=
  fnv1a64Bytes 14695981039346656037
    (u64leBytes (toU64 st.hour) ++ u64leBytes (toU64 st.population) ++
     u64leBytes (toU64 st.housingCapacity) ++ u64leBytes (toU64 st.res.metals) ++
     u64leBytes (toU64 st.res.credits) ++ u64leBytes (st.rngSeed % 2 ^ 64))

/-! ## Projection lemmas for `simulateHour` -/

theorem simulateHour_powerStored (st : GameState) :
    (simulateHour st).res.powerStored = clampv (simDispatch st).soc 0 st.res.batteryCapacity := rfl

theorem simulateHour_batteryCapacity (st : GameState) :
    (simulateHour st).res.batteryCapacity = st.res.batteryCapacity := rfl

theorem simulateHour_battIn (st : GameState) :
    (simulateHour st).lastPower.battIn = (simDispatch st).battIn := rfl

theorem simulateHour_battOut (st : GameState) :
    (simulateHour st).lastPower.battOut = (simDispatch st).battOut := rfl

theorem simulateHour_blackout (st : GameState) :
    (simulateHour st).lastPower.blackout = simBlackout st := rfl

theorem simulateHour_nonCriticalEff (st : GameState) :
    (simulateHour st).lastPower.nonCriticalEff =
      (if 0 < noncritPotentialOf st then
        (if simBlackout st then 0 else simNoncritUsed st / noncritPotentialOf st)
      else 0) := rfl

theorem simulateHourRun_flags (st : GameState) :
    (simulateHourRun st).2 = simRunFlags st := rfl

/-- The state-of-charge identity of the dispatch step: efficiency is
applied exactly once per direction. -/
theorem batteryDispatch_soc_eq (cap soc0 cRate etaIn etaOut net : ℝ) :
    (batteryDispatch cap soc0 cRate etaIn etaOut net).soc =
      soc0 + (batteryDispatch cap soc0 cRate etaIn etaOut net).battIn * etaIn -
        (batteryDispatch cap soc0 cRate etaIn etaOut net).battOut / max 1e-12 etaOut := by
  unfold batteryDispatch
  split_ifs <;> simp

/-- C3: the state-of-charge update of a tick satisfies
`powerStored_after = clampv (powerStored_before + battIn * etaIn - battOut / max 1e-12 etaOut)`
with losses applied exactly once per direction, and in particular with
`etaIn = etaOut = 1` it is exactly
`clamp(powerStored_before + battIn - battOut, 0, batteryCapacity)`,
where `battIn` and `battOut` are the battery telemetry reported for the
tick. -/
theorem claim3_energy_conservation (st : GameState) :
    ((simulateHour st).res.powerStored =
      clampv (st.res.powerStored + (simulateHour st).lastPower.battIn * st.batteryEtaIn -
              (simulateHour st).lastPower.battOut / max 1e-12 st.batteryEtaOut)
        0 st.res.batteryCapacity) ∧
    (st.batteryEtaIn = 1 → st.batteryEtaOut = 1 →
      (simulateHour st).res.powerStored =
        clampv (st.res.powerStored + (simulateHour st).lastPower.battIn -
                (simulateHour st).lastPower.battOut) 0 st.res.batteryCapacity) := by
  have hgen : (simulateHour st).res.powerStored =
      clampv (st.res.powerStored + (simulateHour st).lastPower.battIn * st.batteryEtaIn -
              (simulateHour st).lastPower.battOut / max 1e-12 st.batteryEtaOut)
        0 st.res.batteryCapacity := by
    rw [simulateHour_powerStored, simulateHour_battIn, simulateHour_battOut]
    rw [show simDispatch st = batteryDispatch st.res.batteryCapacity st.res.powerStored
          st.batteryCRate st.batteryEtaIn st.batteryEtaOut (simNetAfterLoads st) from rfl]
    rw [batteryDispatch_soc_eq]
  refine ⟨hgen, fun hIn hOut => ?_⟩
  rw [hgen, hIn, hOut]
  have hm : max (1e-12 : ℝ) 1 = 1 := by norm_num
  rw [hm, mul_one, div_one]

/-- Concrete instance of C3 with unit efficiencies. -/
def c3WitnessState : GameState :=
  { GameState.init 0 with batteryEtaIn := 1, batteryEtaOut := 1 }

theorem claim3_energy_conservation_witness :
    c3WitnessState.batteryEtaIn = 1 ∧ c3WitnessState.batteryEtaOut = 1 ∧
    (simulateHour c3WitnessState).res.powerStored =
      clampv (c3WitnessState.res.powerStored + (simulateHour c3WitnessState).lastPower.battIn -
              (simulateHour c3WitnessState).lastPower.battOut)
        0 c3WitnessState.res.batteryCapacity :=
  ⟨rfl, rfl, (claim3_energy_conservation c3WitnessState).2 rfl rfl⟩

/-! ## C1: determinism -/

/-- Overwrite the generator fields with fixed cheap values (proof device
for showing that `setSeed` erases construction entropy). -/
def eraseRng (st : GameState) : GameState := { st with rng := ⟨[], 0⟩, rngSeed := 0 }

/-- The fully entropy-free fresh state. -/
def entropyFreeInit : GameState := { rng := ⟨[], 0⟩, rngSeed := 0 }

theorem eraseRng_addBuilding (t : BuildingType) (st : GameState) :
    eraseRng (addBuilding t st) = addBuilding t (eraseRng st) := rfl

theorem setSeed_eraseRng (seed : ℕ) (st : GameState) :
    Game.setSeed seed { s := st } = Game.setSeed seed { s := eraseRng st } := rfl

theorem eraseRng_init (e : ℕ) : eraseRng (GameState.init e) = entropyFreeInit := rfl

/-- Applying `setSeed` erases all dependence on construction entropy. -/
theorem setSeed_init_indep (e1 e2 seed : ℕ) :
    Game.setSeed seed (Game.init e1) = Game.setSeed seed (Game.init e2) := by
  have key : ∀ e : ℕ,
      Game.setSeed seed (Game.init e) =
        Game.setSeed seed { s := initStarter entropyFreeInit } := by
    intro e
    rw [show Game.init e = { s := initStarter (GameState.init e) } from rfl,
        setSeed_eraseRng]
    rw [show eraseRng (initStarter (GameState.init e)) =
          initStarter (eraseRng (GameState.init e)) by
        unfold initStarter
        simp only [eraseRng_addBuilding]]
    rw [eraseRng_init e]
  rw [key e1, key e2]

/-- C1: for every seed, command list and tick count, two independently
constructed simulations (arbitrary construction entropy `e1`, `e2`) that
receive the same seed via `setSeed` and the same queued build commands
produce identical results after `N` ticks, and hence identical final
checksums; all stochastic decisions draw from the state-owned RNG only,
so the run is a pure function of seed, commands and tick count. -/
theorem claim1_determinism (e1 e2 seed : ℕ) (K : List Command) (N : ℕ) :
    (advanceHours N (queueCommands K (Game.setSeed seed (Game.init e1))) =
      advanceHours N (queueCommands K (Game.setSeed seed (Game.init e2)))) ∧
    (Except.map (fun g : Game => stateChecksum g.s)
        (advanceHours N (queueCommands K (Game.setSeed seed (Game.init e1)))) =
      Except.map (fun g : Game => stateChecksum g.s)
        (advanceHours N (queueCommands K (Game.setSeed seed (Game.init e2))))) := by
  rw [setSeed_init_indep e1 e2 seed]
  exact ⟨rfl, rfl⟩

/-! ## C5: the state-of-charge capacity bound -/

theorem clampv_nonneg_mem (v hi : ℝ) (h : 0 ≤ hi) :
    0 ≤ clampv v 0 hi ∧ clampv v 0 hi ≤ hi := by
  unfold clampv
  exact ⟨le_min h (le_max_left 0 v), min_le_left hi _⟩

theorem specDelta_nonneg (t : BuildingType) : 0 ≤ (getSpecT t).batteryCapacityDelta := by
  cases t <;> norm_num [getSpecT]

theorem addBuilding_capacity (t : BuildingType) (st : GameState) :
    (addBuilding t st).res.batteryCapacity =
      st.res.batteryCapacity + (getSpecT t).batteryCapacityDelta := rfl

theorem addBuilding_powerStored (t : BuildingType) (st : GameState) :
    (addBuilding t st).res.powerStored =
      clampv st.res.powerStored 0 (st.res.batteryCapacity + (getSpecT t).batteryCapacityDelta) :=
  rfl

/-- The battery invariant used throughout: the claim's bound plus the
capacity nonnegativity that makes the clamps well behaved. -/
def BattInv (st : GameState) : Prop :=
  0 ≤ st.res.powerStored ∧ st.res.powerStored ≤ st.res.batteryCapacity ∧
    0 ≤ st.res.batteryCapacity

theorem addBuilding_inv (t : BuildingType) (st : GameState) (h : 0 ≤ st.res.batteryCapacity) :
    BattInv (addBuilding t st) := by
  have hcap : (0 : ℝ) ≤ st.res.batteryCapacity + (getSpecT t).batteryCapacityDelta :=
    add_nonneg h (specDelta_nonneg t)
  have hm := clampv_nonneg_mem st.res.powerStored _ hcap
  exact ⟨by rw [addBuilding_powerStored]; exact hm.1,
         by rw [addBuilding_powerStored, addBuilding_capacity]; exact hm.2,
         by rw [addBuilding_capacity]; exact hcap⟩

theorem tryBuild_inv (t : BuildingType) (st : GameState) (h : BattInv st) :
    BattInv (tryBuild t st).2 := by
  simp only [tryBuild]
  split_ifs
  · exact h
  · exact h
  · exact addBuilding_inv t _ h.2.2

theorem stormStep_res (st : GameState) : (stormStep st).res = st.res := by
  simp only [stormStep]
  split_ifs <;> rfl

theorem meteorStep_res (st : GameState) : (meteorStep st).res = st.res := by
  simp only [meteorStep]
  split_ifs <;> rfl

theorem supplyStep_psCap (st : GameState) :
    (supplyStep st).res.powerStored = st.res.powerStored ∧
      (supplyStep st).res.batteryCapacity = st.res.batteryCapacity := by
  simp only [supplyStep]
  split_ifs <;> exact ⟨rfl, rfl⟩

theorem maybeSpawnEvents_inv (st : GameState) (h : BattInv st) :
    BattInv (maybeSpawnEvents st) := by
  unfold maybeSpawnEvents
  split_ifs with hh
  · exact h
  · have hs := supplyStep_psCap (meteorStep (stormStep st))
    unfold BattInv
    rw [hs.1, hs.2, meteorStep_res, stormStep_res]
    exact h

theorem simulateHour_inv (st : GameState) (h : 0 ≤ st.res.batteryCapacity) :
    BattInv (simulateHour st) := by
  have hm := clampv_nonneg_mem (simDispatch st).soc _ h
  exact ⟨by rw [simulateHour_powerStored]; exact hm.1,
         by rw [simulateHour_powerStored, simulateHour_batteryCapacity]; exact hm.2,
         by rw [simulateHour_batteryCapacity]; exact h⟩

theorem tickEffects_res (st : GameState) : (tickEffects st).res = st.res := rfl

/-- Reachability through the engine's state-mutating operations: the
constructor, direct building addition (starter setup), command builds,
event spawning, the hourly dispatch, effect expiry and the hour
increment — every operation of a tick. -/
inductive Reach : GameState → Prop
  | init (e : ℕ) : Reach (GameState.init e)
  | addB (t : BuildingType) {st : GameState} : Reach st → Reach (addBuilding t st)
  | build (t : BuildingType) {st : GameState} : Reach st → Reach (tryBuild t st).2
  | events {st : GameState} : Reach st → Reach (maybeSpawnEvents st)
  | simulate {st : GameState} : Reach st → Reach (simulateHour st)
  | tick {st : GameState} : Reach st → Reach (tickEffects st)
  | nextHour {st : GameState} : Reach st → Reach { st with hour := st.hour + 1 }

theorem reach_battInv {st : GameState} (h : Reach st) : BattInv st := by
  induction h with
  | init e => exact ⟨by norm_num [GameState.init], by norm_num [GameState.init],
                     by norm_num [GameState.init]⟩
  | addB t _ ih => exact addBuilding_inv t _ ih.2.2
  | build t _ ih => exact tryBuild_inv t _ ih
  | events _ ih => exact maybeSpawnEvents_inv _ ih
  | simulate _ ih => exact simulateHour_inv _ ih.2.2
  | tick _ ih => exact ⟨by rw [tickEffects_res]; exact ih.1,
                        by rw [tickEffects_res]; exact ih.2.1,
                        by rw [tickEffects_res]; exact ih.2.2⟩
  | nextHour _ ih => exact ih

/-- C5: for every state reachable through the engine's operations (and
hence after every operation of a tick: command application, events,
dispatch, construction, effect expiry), the stored charge satisfies
`0 ≤ powerStored ≤ batteryCapacity`. -/
theorem claim5_capacity_bound (st : GameState) (h : Reach st) :
    0 ≤ st.res.powerStored ∧ st.res.powerStored ≤ st.res.batteryCapacity :=
  ⟨(reach_battInv h).1, (reach_battInv h).2.1⟩

theorem claim5_capacity_bound_witness :
    Reach (GameState.init 0) ∧
      (0 ≤ (GameState.init 0).res.powerStored ∧
        (GameState.init 0).res.powerStored ≤ (GameState.init 0).res.batteryCapacity) :=
  ⟨Reach.init 0, claim5_capacity_bound (GameState.init 0) (Reach.init 0)⟩

/-! ## C2: forecast purity -/

theorem applyCommandsForHour_ok_fields (g g1 : Game)
    (h : applyCommandsForHour g = .ok g1) :
    g1.hardFailOnInvariant = g.hardFailOnInvariant := by
  unfold applyCommandsForHour at h
  cases hl : applyCmdList (cmdsAt g.s.hour g.pendingCommands) g.s with
  | error st => rw [hl] at h; cases h
  | ok st => rw [hl] at h; cases h; rfl

theorem forecastLoop_hardFail (n : ℕ) :
    ∀ g p, forecastLoop n g = .ok p → p.1.hardFailOnInvariant = g.hardFailOnInvariant := by
  induction n with
  | zero =>
    intro g p h
    cases h
    rfl
  | succ n ih =>
    intro g p h
    unfold forecastLoop at h
    split at h
    · cases h
    · rename_i g1 hc
      simp only [] at h
      split at h
      · cases h
      · rename_i q hl
        cases h
        rw [ih _ _ hl]
        exact applyCommandsForHour_ok_fields g g1 hc

/-- C2 (amended): whenever `forecastHours` completes without an internal
error, the live object — every state field and the pending command
queue — is restored exactly, so repeated calls return identical outputs;
the restoration is, however, a success-path action only (see the
counterexample for the raising case). -/
theorem claim2_forecast_purity (g : Game) (N : ℕ) (gOut : Game) (rows : List ForecastRow)
    (h : forecastHours g N = .ok (gOut, rows)) :
    gOut = g ∧ forecastHours gOut N = .ok (gOut, rows) := by
  have hrestore : gOut = g := by
    unfold forecastHours at h
    cases hl : forecastLoop N { g with forecastMode := true } with
    | error e => rw [hl] at h; cases h
    | ok p =>
      rw [hl] at h
      simp only [Except.ok.injEq, Prod.mk.injEq] at h
      obtain ⟨h1, h2⟩ := h
      have hhf : p.1.hardFailOnInvariant = g.hardFailOnInvariant :=
        forecastLoop_hardFail N { g with forecastMode := true } p hl
      rw [← h1]
      cases g with
      | mk gs gf ghf gp =>
        simp only [] at hhf
        simp [hhf]
  refine ⟨hrestore, ?_⟩
  rw [hrestore] at h ⊢
  exact h

/-- Concrete successful forecast used to instantiate C2. -/
def c2WitnessGame : Game := { s := GameState.init 0 }

theorem claim2_forecast_purity_witness :
    forecastHours c2WitnessGame 0 = .ok (c2WitnessGame, []) ∧
      c2WitnessGame = c2WitnessGame ∧
      forecastHours c2WitnessGame 0 = .ok (c2WitnessGame, []) := by
  have h0 : forecastHours c2WitnessGame 0 = .ok (c2WitnessGame, []) := rfl
  exact ⟨h0, (claim2_forecast_purity c2WitnessGame 0 c2WitnessGame [] h0).1 ▸ ⟨rfl, h0⟩⟩

/-- Projection of the object state carried by a propagating exception. -/
def errGame : Except (EngineError × Game) (Game × List ForecastRow) → Option Game
  | .error e => some e.2
  | .ok _ => none

/-- A live game with two orders queued for the current hour: a valid
solar-array build followed by a build whose kind 7 is outside the
catalog (as a replay file can produce). -/
def c2Game : Game :=
  { s := GameState.init 0,
    pendingCommands :=
      [ { hour := 0, type := .Build, a := 0 }, { hour := 0, type := .Build, a := 7 } ] }

/-- C2 (counterexample to the unconditional-restoration clause): on this
input the forecast raises out of the command drain; the propagating
exception leaves the live object with the mutated state (metals spent on
the first order: 150 instead of 200) and `forecastMode` still set —
restoration did not happen. -/
theorem claim2_counterexample :
    (errGame (forecastHours c2Game 1)).map (fun g => g.s.res.metals) = some 150 ∧
      c2Game.s.res.metals = 200 ∧
      (errGame (forecastHours c2Game 1)).map (fun g => g.forecastMode) = some true ∧
      c2Game.forecastMode = false := by
  refine ⟨?_, rfl, ?_, rfl⟩ <;>
    simp [forecastHours, forecastLoop, applyCommandsForHour, cmdsAt, applyCmdList, c2Game,
          GameState.init, intToBuildingType, tryBuild, addBuilding, getSpecT, errGame,
          List.filter]

/-! ## C4: blackout correctness -/

theorem nonCritBudgetCalc_eq_zero (p c d : ℝ) (hd : 0 ≤ d) (h : p + d < c) :
    nonCritBudgetCalc p c d = 0 := by
  simp only [nonCritBudgetCalc]
  have hsur : max 0 (p - c) = 0 := max_eq_left (by linarith)
  have hdef : max 0 (c - p) = c - p := max_eq_right (by linarith)
  have hres : min (c - p) d = d := min_eq_right (by linarith)
  rw [hsur, hdef, hres]
  simp

theorem batteryDispatch_netAfter_deficit (cap soc0 cRate etaIn etaOut net : ℝ)
    (h : net < -1e-9) :
    (batteryDispatch cap soc0 cRate etaIn etaOut net).netAfter ≤
      net + max 0 (min (cap * cRate) (soc0 * etaOut)) := by
  simp only [batteryDispatch]
  rw [if_neg (by linarith), if_pos h]
  simp only
  have hmono : max 0 (min (-net) (min (cap * cRate) (soc0 * etaOut))) ≤
      max 0 (min (cap * cRate) (soc0 * etaOut)) :=
    max_le_max le_rfl (min_le_right _ _)
  linarith

theorem simBlackout_iff (st : GameState) :
    simBlackout st = true ↔ (simDispatch st).netAfter < -1e-6 := by
  unfold simBlackout
  split_ifs with h <;> simp [h]

/-- If the dispatch ends the tick still short by more than the
tolerance, then the full deliverable pool (C-rate and state-of-charge
limited) fell short of the whole committed deficit by more than the
tolerance. -/
theorem batteryDispatch_blackout_bound (cap soc0 cRate etaIn etaOut net : ℝ)
    (h : (batteryDispatch cap soc0 cRate etaIn etaOut net).netAfter < -1e-6) :
    net + max 0 (min (cap * cRate) (soc0 * etaOut)) < -1e-6 := by
  simp only [batteryDispatch] at h
  by_cases h1 : (1e-9 : ℝ) < net
  · rw [if_pos h1] at h
    dsimp only at h
    exfalso
    have hc : max 0 (min net (min (cap * cRate) ((cap - soc0) / max 1e-12 etaIn))) ≤ net :=
      max_le (by linarith) (min_le_left _ _)
    linarith
  · rw [if_neg h1] at h
    by_cases h2 : net < -1e-9
    · rw [if_pos h2] at h
      dsimp only at h
      rcases le_total (max 0 (min (cap * cRate) (soc0 * etaOut))) (-net) with hle | hle
      · have heq : max 0 (min (-net) (min (cap * cRate) (soc0 * etaOut))) =
            max 0 (min (cap * cRate) (soc0 * etaOut)) := by
          rcases le_total (min (cap * cRate) (soc0 * etaOut)) 0 with hm | hm
          · rw [min_eq_right (by linarith)]
          · rw [max_eq_right hm] at hle
            rw [min_eq_right hle]
        rw [heq] at h
        exact h
      · exfalso
        have hpos : (0 : ℝ) < -net := by linarith
        have hM : max 0 (min (cap * cRate) (soc0 * etaOut)) =
            min (cap * cRate) (soc0 * etaOut) := by
          rcases le_total (min (cap * cRate) (soc0 * etaOut)) 0 with hm | hm
          · exfalso
            rw [max_eq_left hm] at hle
            linarith
          · exact max_eq_right hm
        rw [hM] at hle
        rw [min_eq_left hle, max_eq_right (le_of_lt hpos)] at h
        linarith
    · rw [if_neg h2] at h
      dsimp only at h
      exfalso
      push_neg at h2
      linarith

/-- C4 (amended): whenever `producers + maxDeliverableBattery <
criticalDemand` (with the deliverable pool clamped at zero as the code
computes it), the non-critical budget is zero, so no non-critical
facility is selected or marked running and `nonCriticalEff = 0`, and in
that regime the blackout flag is raised *exactly* when the unmet
critical shortfall exceeds the `1e-6` float tolerance, i.e. iff
`producers + maxDeliverableBattery < criticalDemand - 1e-6`.
Conversely, a blackout occurs only if the full deliverable pool falls
short — by more than the tolerance — of critical demand *plus the
non-critical load actually committed this tick*; the original clause
"only if the pool cannot close the critical gap alone" fails because
the knapsack's `+0.5` capacity rounding can over-select non-critical
load (second counterexample scenario). -/
theorem claim4_blackout (st : GameState) :
    (simProducers st + deliverableMaxOf st < criticalOf st →
      simChosen st = [] ∧ simRunFlags st = List.replicate st.buildings.length false ∧
      simNoncritUsed st = 0 ∧ (simulateHour st).lastPower.nonCriticalEff = 0) ∧
    (simProducers st + deliverableMaxOf st < criticalOf st →
      ((simulateHour st).lastPower.blackout = true ↔
        simProducers st + deliverableMaxOf st < criticalOf st - 1e-6)) ∧
    ((simulateHour st).lastPower.blackout = true →
      simProducers st + deliverableMaxOf st < criticalOf st + simNoncritUsed st - 1e-6) := by
  have hd : 0 ≤ deliverableMaxOf st := le_max_left 0 _
  have hmain : simProducers st + deliverableMaxOf st < criticalOf st →
      simChosen st = [] ∧ simRunFlags st = List.replicate st.buildings.length false ∧
      simNoncritUsed st = 0 ∧ (simulateHour st).lastPower.nonCriticalEff = 0 := by
    intro h
    have hbud : simNonCritBudget st = 0 :=
      nonCritBudgetCalc_eq_zero _ _ _ hd h
    have hchosen : simChosen st = [] := by
      unfold simChosen
      rw [hbud]
      simp
    have hflags : simRunFlags st = List.replicate st.buildings.length false := by
      unfold simRunFlags
      rw [hchosen]
      rfl
    have hused : simNoncritUsed st = 0 := by
      unfold simNoncritUsed
      rw [hchosen]
      rfl
    refine ⟨hchosen, hflags, hused, ?_⟩
    rw [simulateHour_nonCriticalEff, hused]
    split_ifs <;> simp
  have hconv : (simulateHour st).lastPower.blackout = true →
      simProducers st + deliverableMaxOf st < criticalOf st + simNoncritUsed st - 1e-6 := by
    intro hb
    rw [simulateHour_blackout, simBlackout_iff] at hb
    rw [show simDispatch st = batteryDispatch st.res.batteryCapacity st.res.powerStored
          st.batteryCRate st.batteryEtaIn st.batteryEtaOut (simNetAfterLoads st) from rfl] at hb
    have hbd := batteryDispatch_blackout_bound st.res.batteryCapacity st.res.powerStored
      st.batteryCRate st.batteryEtaIn st.batteryEtaOut (simNetAfterLoads st) hb
    rw [show simNetAfterLoads st =
          simProducers st - criticalOf st - simNoncritUsed st from rfl] at hbd
    rw [show max 0 (min (st.res.batteryCapacity * st.batteryCRate)
          (st.res.powerStored * st.batteryEtaOut)) = deliverableMaxOf st from rfl] at hbd
    linarith
  refine ⟨hmain, fun h0 => ⟨fun hb => ?_, fun h => ?_⟩, hconv⟩
  · have hgen := hconv hb
    rw [(hmain h0).2.2.1] at hgen
    linarith
  · have hused := (hmain h0).2.2.1
    have hnet : simNetAfterLoads st = simProducers st - criticalOf st := by
      unfold simNetAfterLoads
      rw [hused, sub_zero]
    have hlt : simNetAfterLoads st < -1e-9 := by
      rw [hnet]
      have h9 : (1e-9 : ℝ) < 1e-6 := by norm_num
      linarith
    have hbound := batteryDispatch_netAfter_deficit st.res.batteryCapacity st.res.powerStored
      st.batteryCRate st.batteryEtaIn st.batteryEtaOut (simNetAfterLoads st) hlt
    have hdm : (simDispatch st).netAfter < -1e-6 := by
      have hdm2 : (simDispatch st).netAfter ≤
          simNetAfterLoads st + deliverableMaxOf st := hbound
      rw [hnet] at hdm2
      linarith
    rw [simulateHour_blackout, simBlackout_iff]
    exact hdm

/-- Concrete state refuting the strict form of C4: one colonist
(critical demand 0.3), no facilities, a lossless battery holding
0.2999995 with C-rate 1.  The full deliverable pool cannot close the
critical gap, yet the residual shortfall is only 5e-7, inside the 1e-6
tolerance. -/
def c4State : GameState :=
  { rng := ⟨[], 0⟩, population := 1, buildings := [],
    res := { powerStored := 0.2999995, batteryCapacity := 0.2999995 },
    batteryCRate := 1, batteryEtaIn := 1, batteryEtaOut := 1 }

/-- Concrete state for the rounding half of the C4 counterexample: no
producers, one habitat (critical, 2) and one greenhouse (non-critical,
12), battery pool 13.96 at C-rate 1 and unit efficiencies. -/
def c4cState : GameState :=
  { rng := ⟨[], 0⟩, population := 0,
    buildings := [{ type := .Habitat }, { type := .Greenhouse }],
    res := { powerStored := 13.96, batteryCapacity := 13.96 },
    batteryCRate := 1, batteryEtaIn := 1, batteryEtaOut := 1 }

theorem c4c_prod : simProducers c4cState = 0 := by
  norm_num [simProducers, producersOf, c4cState, getSpecT]

theorem c4c_crit : criticalOf c4cState = 2 := by
  norm_num [criticalOf, c4cState, getSpecT, PWR_PER_COLONIST]

theorem c4c_del : deliverableMaxOf c4cState = 13.96 := by
  simp only [deliverableMaxOf, c4cState]
  norm_num

theorem c4c_bud : simNonCritBudget c4cState = 11.96 := by
  unfold simNonCritBudget nonCritBudgetCalc
  rw [c4c_prod, c4c_crit, c4c_del]
  norm_num

theorem c4c_wf : scarcityWFood c4cState = 1 + 72 / 10000 := by
  norm_num [scarcityWFood, weightFromHours, hoursOf, c4cState, FOOD_PER_COLONIST]

theorem c4c_wo : scarcityWO2 c4cState = 1 + 72 / 10000 := by
  norm_num [scarcityWO2, weightFromHours, hoursOf, c4cState, O2_PER_COLONIST]

theorem c4c_hU : 0 < knapUtility (scarcityWFood c4cState) (scarcityWO2 c4cState)
    (scarcityWWater c4cState) (getSpecT .Greenhouse) := by
  rw [knapUtility, c4c_wf, c4c_wo]
  norm_num [getSpecT]

theorem c4c_henum : c4cState.buildings.enum =
    [(0, { type := .Habitat }), (1, { type := .Greenhouse })] := by decide

theorem c4c_items : knapItems c4cState (scarcityWFood c4cState) (scarcityWO2 c4cState)
    (scarcityWWater c4cState) =
    [⟨1, 120, knapUtility (scarcityWFood c4cState) (scarcityWO2 c4cState)
      (scarcityWWater c4cState) (getSpecT .Greenhouse)⟩] := by
  have hW : cTrunc ((241 : ℝ) / 2) = 120 := by
    rw [cTrunc, if_pos (by norm_num)]
    rw [show (241 : ℝ) / 2 = 120.5 by norm_num]
    exact Int.floor_eq_iff.mpr (by norm_num)
  rw [knapItems, c4c_henum]
  rw [List.filterMap_cons, List.filterMap_cons, List.filterMap_nil]
  norm_num [show (getSpecT BuildingType.Habitat).isCriticalLoad = true from rfl,
            show (getSpecT BuildingType.Greenhouse).needsPower = true from rfl,
            show (getSpecT BuildingType.Greenhouse).isCriticalLoad = false from rfl,
            show (getSpecT BuildingType.Greenhouse).powerCons = (12 : ℝ) from rfl,
            hW, c4c_hU]
  decide

theorem c4c_cap : knapCapacity (11.96 : ℝ) = 120 := by
  rw [knapCapacity, show max (0 : ℝ) 11.96 = 11.96 from max_eq_right (by norm_num)]
  rw [cTrunc, if_pos (by norm_num)]
  rw [show (11.96 : ℝ) * 10 + 0.5 = 120.1 by norm_num]
  exact Int.floor_eq_iff.mpr (by norm_num)

theorem c4c_chosen : simChosen c4cState = [1] := by
  unfold simChosen
  rw [if_pos (show 0 < simNonCritBudget c4cState by rw [c4c_bud]; norm_num)]
  rw [c4c_bud]
  simp only [chooseNonCriticalLoads, knapSelOf]
  rw [c4c_cap, c4c_items]
  rw [if_neg (by simp)]
  rw [List.reverse_singleton]
  rw [show ((120 : ℤ).toNat) = 120 from rfl]
  simp only [knapSel, dpVal]
  rw [if_pos ⟨by norm_num, by have := c4c_hU; linarith⟩]
  simp [knapSel]

theorem c4c_used : simNoncritUsed c4cState = 12 := by
  rw [simNoncritUsed, c4c_chosen]
  simp only [List.foldl]
  norm_num [c4cState, getSpecT]

theorem c4c_net : simNetAfterLoads c4cState = -14 := by
  rw [simNetAfterLoads, c4c_prod, c4c_crit, c4c_used]; norm_num

theorem c4c_disp : (simDispatch c4cState).netAfter = -14 + 13.96 := by
  unfold simDispatch
  rw [c4c_net]
  simp only [batteryDispatch]
  rw [if_neg (by norm_num), if_pos (by norm_num : (-14 : ℝ) < -1e-9)]
  simp only
  rw [show c4cState.res.batteryCapacity * c4cState.batteryCRate = 13.96 by
        simp [c4cState],
      show c4cState.res.powerStored * c4cState.batteryEtaOut = 13.96 by
        simp [c4cState]]
  rw [neg_neg, min_self, show min (14 : ℝ) 13.96 = 13.96 from min_eq_right (by norm_num),
      show max (0 : ℝ) 13.96 = 13.96 from max_eq_right (by norm_num)]

theorem c4c_black : (simulateHour c4cState).lastPower.blackout = true := by
  rw [simulateHour_blackout]
  unfold simBlackout
  rw [if_pos (by rw [c4c_disp]; norm_num)]

theorem c4c_ge : criticalOf c4cState ≤ simProducers c4cState + deliverableMaxOf c4cState := by
  rw [c4c_prod, c4c_crit, c4c_del]; norm_num

theorem claim4_counterexample :
    (simProducers c4State + deliverableMaxOf c4State < criticalOf c4State ∧
      (simulateHour c4State).lastPower.blackout = false) ∧
    (criticalOf c4cState ≤ simProducers c4cState + deliverableMaxOf c4cState ∧
      simNoncritUsed c4cState = 12 ∧
      (simulateHour c4cState).lastPower.blackout = true) := by
  have hprod : simProducers c4State = 0 := rfl
  have hcrit : criticalOf c4State = 0.3 := by
    simp [criticalOf, c4State, PWR_PER_COLONIST]
  have hdel : deliverableMaxOf c4State = 0.2999995 := by
    simp only [deliverableMaxOf, c4State]
    norm_num
  have hbud : simNonCritBudget c4State = 0 := by
    apply nonCritBudgetCalc_eq_zero
    · rw [hdel]; norm_num
    · rw [hprod, hdel, hcrit]; norm_num
  have hchosen : simChosen c4State = [] := by
    unfold simChosen
    rw [hbud]
    simp
  have hused : simNoncritUsed c4State = 0 := by
    unfold simNoncritUsed
    rw [hchosen]
    rfl
  have hnet : simNetAfterLoads c4State = -0.3 := by
    unfold simNetAfterLoads
    rw [hused, hprod, hcrit]
    norm_num
  have hdisp : (simDispatch c4State).netAfter = -0.3 + 0.2999995 := by
    unfold simDispatch
    rw [hnet]
    simp only [batteryDispatch]
    rw [if_neg (by norm_num), if_pos (by norm_num : (-0.3 : ℝ) < -1e-9)]
    simp only
    rw [show c4State.res.batteryCapacity * c4State.batteryCRate = 0.2999995 by
          simp [c4State],
        show c4State.res.powerStored * c4State.batteryEtaOut = 0.2999995 by
          simp [c4State]]
    rw [neg_neg, min_self, show min (0.3 : ℝ) 0.2999995 = 0.2999995 from
          min_eq_right (by norm_num),
        show max (0 : ℝ) 0.2999995 = 0.2999995 from max_eq_right (by norm_num)]
  refine ⟨⟨?_, ?_⟩, c4c_ge, c4c_used, c4c_black⟩
  · rw [hprod, hcrit, hdel]; norm_num
  · rw [simulateHour_blackout]
    unfold simBlackout
    rw [if_neg (by rw [hdisp]; norm_num)]

/-- Concrete state with a genuine (beyond-tolerance) critical shortfall
for the amended C4. -/
def c4bState : GameState :=
  { rng := ⟨[], 0⟩, population := 1, buildings := [],
    res := { powerStored := 0.1, batteryCapacity := 0.1 },
    batteryCRate := 1, batteryEtaIn := 1, batteryEtaOut := 1 }

theorem claim4_blackout_witness :
    (simProducers c4bState + deliverableMaxOf c4bState < criticalOf c4bState - 1e-6) ∧
      (simulateHour c4bState).lastPower.blackout = true ∧
      simChosen c4bState = [] ∧
      (simulateHour c4bState).lastPower.nonCriticalEff = 0 ∧
      simProducers c4bState + deliverableMaxOf c4bState <
        criticalOf c4bState + simNoncritUsed c4bState - 1e-6 := by
  have hprod : simProducers c4bState = 0 := rfl
  have hcrit : criticalOf c4bState = 0.3 := by
    simp [criticalOf, c4bState, PWR_PER_COLONIST]
  have hdel : deliverableMaxOf c4bState = 0.1 := by
    simp only [deliverableMaxOf, c4bState]
    norm_num
  have hp : simProducers c4bState + deliverableMaxOf c4bState < criticalOf c4bState - 1e-6 := by
    rw [hprod, hcrit, hdel]; norm_num
  have hp0 : simProducers c4bState + deliverableMaxOf c4bState < criticalOf c4bState := by
    rw [hprod, hcrit, hdel]; norm_num
  obtain ⟨ha, hiff, hconv⟩ := claim4_blackout c4bState
  have hbl : (simulateHour c4bState).lastPower.blackout = true := (hiff hp0).mpr hp
  exact ⟨hp, hbl, (ha hp0).1, (ha hp0).2.2.2, hconv hbl⟩

/-! ## C9: dust-storm spawning -/

theorem meteorStep_effects (st : GameState) : (meteorStep st).effects = st.effects := by
  simp only [meteorStep]
  split_ifs <;> rfl

theorem supplyStep_effects (st : GameState) : (supplyStep st).effects = st.effects := by
  simp only [supplyStep]
  split_ifs <;> rfl

/-- C9 (amended): at every cycle boundary, whenever the storm roll hits
(first uniform draw below 0.18) a new dust-storm effect is appended to
the effect list — regardless of whether a dust storm is already active;
there is no "only if none active" guard. -/
theorem claim9_storm_no_guard (st : GameState) (hb : hourOfSol st = 0)
    (hroll : (uniformReal 0 1 st.rng).1 < 0.18) :
    ∃ e : ActiveEffect, e.type = EffectType.DustStorm ∧
      (maybeSpawnEvents st).effects = st.effects ++ [e] := by
  unfold maybeSpawnEvents
  rw [if_neg (by simp [hb])]
  rw [supplyStep_effects, meteorStep_effects]
  simp only [stormStep]
  rw [if_pos hroll]
  refine ⟨_, ?_, rfl⟩
  simp

/-- An mt19937 internal state of all-zero words (loadable through a save
file's `rngstate` line); every output it produces is 0. -/
def zeroWords : List ℕ := List.replicate 624 0

theorem mtNext_zw0 : mtNext ⟨zeroWords, 0⟩ = (0, ⟨zeroWords, 1⟩) := by decide
theorem mtNext_zw1 : mtNext ⟨zeroWords, 1⟩ = (0, ⟨zeroWords, 2⟩) := by decide
theorem mtNext_zw3 : mtNext ⟨zeroWords, 3⟩ = (0, ⟨zeroWords, 4⟩) := by decide
theorem mtNext_zw4 : mtNext ⟨zeroWords, 4⟩ = (0, ⟨zeroWords, 5⟩) := by decide
theorem mtNext_zw5 : mtNext ⟨zeroWords, 5⟩ = (0, ⟨zeroWords, 6⟩) := by decide
theorem mtNext_zw6 : mtNext ⟨zeroWords, 6⟩ = (0, ⟨zeroWords, 7⟩) := by decide
theorem mtNext_zw7 : mtNext ⟨zeroWords, 7⟩ = (0, ⟨zeroWords, 8⟩) := by decide
theorem mtNext_zw8 : mtNext ⟨zeroWords, 8⟩ = (0, ⟨zeroWords, 9⟩) := by decide

theorem uniformReal_zw0 (a b : ℝ) : uniformReal a b ⟨zeroWords, 0⟩ = (a, ⟨zeroWords, 2⟩) := by
  simp only [uniformReal, canonicalReal, mtNext_zw0, mtNext_zw1]
  norm_num

theorem uniformReal_zw3 (a b : ℝ) : uniformReal a b ⟨zeroWords, 3⟩ = (a, ⟨zeroWords, 5⟩) := by
  simp only [uniformReal, canonicalReal, mtNext_zw3, mtNext_zw4]
  norm_num

theorem uniformReal_zw5 (a b : ℝ) : uniformReal a b ⟨zeroWords, 5⟩ = (a, ⟨zeroWords, 7⟩) := by
  simp only [uniformReal, canonicalReal, mtNext_zw5, mtNext_zw6]
  norm_num

theorem uniformReal_zw7 (a b : ℝ) : uniformReal a b ⟨zeroWords, 7⟩ = (a, ⟨zeroWords, 9⟩) := by
  simp only [uniformReal, canonicalReal, mtNext_zw7, mtNext_zw8]
  norm_num

theorem uniformInt_zw2 : uniformInt 36 96 ⟨zeroWords, 2⟩ = (36, ⟨zeroWords, 3⟩) := by decide

/-- A dust storm already active when the cycle boundary fires. -/
def c9Effect : ActiveEffect :=
  { type := .DustStorm, hoursRemaining := 5, solarMultiplier := 0.5,
    description := stormDescription 0.5 }

/-- A state at a cycle boundary with one active dust storm and an RNG
state whose next roll hits the 18% storm probability. -/
def c9State : GameState :=
  { rng := ⟨zeroWords, 0⟩, buildings := [], effects := [c9Effect] }

/-- C9 (counterexample): a tick in which a dust storm is already active
does spawn a second dust-storm effect. -/
theorem claim9_counterexample :
    c9State.effects.length = 1 ∧
      (∀ e ∈ c9State.effects, e.type = EffectType.DustStorm) ∧
      (maybeSpawnEvents c9State).effects.length = 2 := by
  refine ⟨rfl, by simp [c9State, c9Effect], ?_⟩
  have hb : hourOfSol c9State = 0 := by decide
  unfold maybeSpawnEvents
  rw [if_neg (by simp [hb])]
  rw [supplyStep_effects, meteorStep_effects]
  simp only [stormStep]
  rw [show c9State.rng = ⟨zeroWords, 0⟩ from rfl, uniformReal_zw0]
  rw [if_pos (by norm_num : (0 : ℝ) < 0.18)]
  simp [c9State]

/-- A boundary state with no storm active, used to instantiate the
amended C9. -/
def c9bState : GameState :=
  { rng := ⟨zeroWords, 0⟩, buildings := [], effects := [] }

theorem claim9_storm_no_guard_witness :
    hourOfSol c9bState = 0 ∧ (uniformReal 0 1 c9bState.rng).1 < 0.18 ∧
      (∃ e : ActiveEffect, e.type = EffectType.DustStorm ∧
        (maybeSpawnEvents c9bState).effects = c9bState.effects ++ [e]) := by
  have hb : hourOfSol c9bState = 0 := by decide
  have hroll : (uniformReal 0 1 c9bState.rng).1 < 0.18 := by
    rw [show c9bState.rng = ⟨zeroWords, 0⟩ from rfl, uniformReal_zw0]
    norm_num
  exact ⟨hb, hroll, claim9_storm_no_guard c9bState hb hroll⟩

/-! ## C6: optimality of the load-selection knapsack -/

theorem kWeightSum_nil : kWeightSum [] = 0 := rfl

theorem kWeightSum_cons (x : KItem) (l : List KItem) :
    kWeightSum (x :: l) = x.w + kWeightSum l := by simp [kWeightSum]

theorem kValueSum_nil : kValueSum [] = 0 := rfl

theorem kValueSum_cons (x : KItem) (l : List KItem) :
    kValueSum (x :: l) = x.v + kValueSum l := by simp [kValueSum]

theorem dpVal_nonneg (L : List KItem) (c : ℕ) : 0 ≤ dpVal L c := by
  induction L generalizing c with
  | nil => simp [dpVal]
  | cons x pre ih =>
    simp only [dpVal]
    split_ifs
    · exact le_trans (ih c) (le_max_left _ _)
    · exact ih c

theorem dpVal_cons_le (x : KItem) (pre : List KItem) (c : ℕ) :
    dpVal pre c ≤ dpVal (x :: pre) c := by
  simp only [dpVal]
  split_ifs
  · exact le_max_left _ _
  · exact le_rfl

theorem knapSel_sublist (L : List KItem) (c : ℕ) : List.Sublist (knapSel L c) L := by
  induction L generalizing c with
  | nil => simp [knapSel]
  | cons x pre ih =>
    simp only [knapSel]
    split_ifs
    · exact (ih _).cons₂ x
    · exact (ih c).cons x

theorem knapSel_wsum (L : List KItem) (c : ℕ) : kWeightSum (knapSel L c) ≤ c := by
  induction L generalizing c with
  | nil => simp [knapSel, kWeightSum]
  | cons x pre ih =>
    simp only [knapSel]
    split_ifs with h
    · rw [kWeightSum_cons]
      have h1 := h.1
      have h2 := ih (c - x.w)
      omega
    · exact ih c

theorem knapSel_vsum (L : List KItem) (c : ℕ) : kValueSum (knapSel L c) = dpVal L c := by
  induction L generalizing c with
  | nil => simp [knapSel, dpVal, kValueSum]
  | cons x pre ih =>
    simp only [knapSel, dpVal]
    split_ifs with hA hB hB
    · rw [kValueSum_cons, ih (c - x.w), max_eq_right (le_of_lt hA.2)]
      ring
    · exact absurd hA.1 hB
    · push_neg at hA
      rw [ih c, max_eq_left (hA hB)]
    · exact ih c

theorem dpVal_ub (L : List KItem) (c : ℕ) (S : List KItem) (hS : List.Sublist S L)
    (hw : kWeightSum S ≤ c) : kValueSum S ≤ dpVal L c := by
  induction L generalizing c S with
  | nil =>
    cases hS
    simp [kValueSum, dpVal]
  | cons x pre ih =>
    cases hS with
    | cons _ hS2 => exact le_trans (ih c S hS2 hw) (dpVal_cons_le x pre c)
    | cons₂ _ hS2 =>
      rename_i S1
      rw [kWeightSum_cons] at hw
      have hxw : x.w ≤ c := le_trans (Nat.le_add_right _ _) hw
      have hw1 : kWeightSum S1 ≤ c - x.w := by omega
      have hv1 := ih (c - x.w) S1 hS2 hw1
      rw [kValueSum_cons]
      simp only [dpVal]
      rw [if_pos hxw]
      exact le_trans (by linarith) (le_max_right _ _)

/-- Maximum of a list of utilities, with 0 for the empty list (the empty
selection is always feasible and has utility 0). -/
def listMax : List ℝ → ℝ
  | [] => 0
  | x :: xs => max x (listMax xs)

theorem listMax_nonneg (l : List ℝ) : 0 ≤ listMax l := by
  induction l with
  | nil => simp [listMax]
  | cons x xs ih => exact le_trans ih (le_max_right x (listMax xs))

theorem listMax_le (l : List ℝ) (M : ℝ) (h0 : 0 ≤ M) (h : ∀ x ∈ l, x ≤ M) :
    listMax l ≤ M := by
  induction l with
  | nil => simpa [listMax] using h0
  | cons x xs ih =>
    simp only [listMax]
    exact max_le (h x (by simp)) (ih fun y hy => h y (by simp [hy]))

theorem le_listMax (l : List ℝ) (x : ℝ) (h : x ∈ l) : x ≤ listMax l := by
  induction l with
  | nil => cases h
  | cons y ys ih =>
    simp only [listMax]
    rcases List.mem_cons.mp h with h1 | h1
    · rw [h1]; exact le_max_left _ _
    · exact le_trans (ih h1) (le_max_right _ _)

/-- The brute-force enumeration of the spec: the best total utility over
all subsets of the item list whose total discretised weight fits the
capacity. -/
def bruteForceBest (L : List KItem) (c : ℕ) : ℝ :=
  listMax ((L.sublists.filter (fun S => decide (kWeightSum S ≤ c))).map kValueSum)

theorem reverse_sublist_iff (S L : List KItem) :
    List.Sublist S L.reverse ↔ List.Sublist S.reverse L := by
  constructor
  · intro h
    have := h.reverse
    rwa [List.reverse_reverse] at this
  · intro h
    have := h.reverse
    rwa [List.reverse_reverse] at this

theorem kValueSum_reverse (S : List KItem) : kValueSum S.reverse = kValueSum S := by
  simp [kValueSum, List.map_reverse, List.sum_reverse]

theorem kWeightSum_reverse (S : List KItem) : kWeightSum S.reverse = kWeightSum S := by
  simp [kWeightSum, List.map_reverse, List.sum_reverse]

/-- The DP value over the reversed item list (the C++ table) equals the
brute-force maximum over subsets of the item list. -/
theorem dpVal_reverse_eq_brute (L : List KItem) (c : ℕ) :
    dpVal L.reverse c = bruteForceBest L c := by
  apply le_antisymm
  · have hsub : List.Sublist (knapSel L.reverse c).reverse L :=
      (reverse_sublist_iff _ L).mp (knapSel_sublist L.reverse c)
    have hwsum : kWeightSum (knapSel L.reverse c).reverse ≤ c := by
      rw [kWeightSum_reverse]; exact knapSel_wsum L.reverse c
    have hmem : kValueSum (knapSel L.reverse c).reverse ∈
        (L.sublists.filter (fun S => decide (kWeightSum S ≤ c))).map kValueSum := by
      apply List.mem_map_of_mem
      rw [List.mem_filter]
      exact ⟨List.mem_sublists.mpr hsub, by simpa using hwsum⟩
    have := le_listMax _ _ hmem
    rwa [kValueSum_reverse, knapSel_vsum] at this
  · apply listMax_le _ _ (dpVal_nonneg _ _)
    intro x hx
    rcases List.mem_map.mp hx with ⟨S, hSmem, rfl⟩
    rw [List.mem_filter] at hSmem
    have hsub : List.Sublist S.reverse L.reverse := (List.mem_sublists.mp hSmem.1).reverse
    have hw : kWeightSum S.reverse ≤ c := by
      rw [kWeightSum_reverse]; simpa using hSmem.2
    have := dpVal_ub L.reverse c S.reverse hsub hw
    rwa [kValueSum_reverse] at this

theorem knapItems_w_pos (st : GameState) (wF wO2 wW : ℝ) :
    ∀ it ∈ knapItems st wF wO2 wW, 1 ≤ it.w := by
  intro it hit
  rcases List.mem_filterMap.mp hit with ⟨ib, _, hsome⟩
  simp only at hsome
  split_ifs at hsome with h1 h2 h3 h4
  all_goals first
    | exact Option.noConfusion hsome
    | (cases hsome; dsimp only; omega)

/-- At capacity 0 the brute-force maximum over positive-weight items is
0 (only the empty selection fits). -/
theorem bruteForceBest_zero (L : List KItem) (hpos : ∀ it ∈ L, 1 ≤ it.w) :
    bruteForceBest L 0 = 0 := by
  apply le_antisymm
  · apply listMax_le _ _ le_rfl
    intro x hx
    rcases List.mem_map.mp hx with ⟨S, hSmem, rfl⟩
    rw [List.mem_filter] at hSmem
    have hw : kWeightSum S ≤ 0 := by simpa using hSmem.2
    have hnil : S = [] := by
      cases S with
      | nil => rfl
      | cons y ys =>
        have hy : 1 ≤ y.w :=
          hpos y (List.Sublist.subset (List.mem_sublists.mp hSmem.1) (by simp))
        rw [kWeightSum_cons] at hw
        omega
    rw [hnil, kValueSum_nil]
  · exact listMax_nonneg _

/-- C6: the optimizer's selected subset is exactly the reconstructed DP
solution over the item list; its total utility equals the brute-force
maximum over all subsets of the items satisfying the discretised weight
constraint; the selection respects the capacity; and a zero (or
negative) budget or an empty item set yields the empty selection, not an
error. -/
theorem claim6_optimizer_optimal (st : GameState) (budget wFood wO2 wWater : ℝ) :
    (chooseNonCriticalLoads st budget wFood wO2 wWater =
      (knapSelOf st budget wFood wO2 wWater).map KItem.idx) ∧
    (kValueSum (knapSelOf st budget wFood wO2 wWater) =
      bruteForceBest (knapItems st wFood wO2 wWater) (knapCapacity budget).toNat) ∧
    (kWeightSum (knapSelOf st budget wFood wO2 wWater) ≤ (knapCapacity budget).toNat) ∧
    ((knapCapacity budget ≤ 0 ∨ knapItems st wFood wO2 wWater = []) →
      chooseNonCriticalLoads st budget wFood wO2 wWater = []) := by
  refine ⟨rfl, ?_, ?_, ?_⟩
  · simp only [knapSelOf]
    split_ifs with hguard
    · rcases hguard with hcap | hitems
      · rw [show (knapCapacity budget).toNat = 0 from by omega]
        rw [bruteForceBest_zero _ (knapItems_w_pos st wFood wO2 wWater), kValueSum_nil]
      · rw [hitems, kValueSum_nil]
        rw [show bruteForceBest [] (knapCapacity budget).toNat = 0 from by
          simp [bruteForceBest, List.sublists_nil, kValueSum, kWeightSum, listMax]]
    · rw [knapSel_vsum]
      exact dpVal_reverse_eq_brute _ _
  · simp only [knapSelOf]
    split_ifs
    · simp [kWeightSum]
    · exact knapSel_wsum _ _
  · intro hguard
    simp only [chooseNonCriticalLoads, knapSelOf]
    rw [if_pos hguard]
    rfl

/-- Concrete zero-budget instance of C6. -/
theorem claim6_optimizer_optimal_witness :
    (knapCapacity 0 ≤ 0 ∨ knapItems (GameState.init 0) 1 1 1 = []) ∧
      chooseNonCriticalLoads (GameState.init 0) 0 1 1 1 = [] := by
  have hcap : knapCapacity 0 ≤ 0 := by
    unfold knapCapacity cTrunc
    rw [if_pos (by norm_num)]
    have : (max 0 (0 : ℝ) * 10 + 0.5) = 0.5 := by norm_num
    rw [this]
    have hfl : (Int.floor (0.5 : ℝ)) = 0 := by
      rw [Int.floor_eq_zero_iff]
      constructor <;> norm_num
    omega
  exact ⟨Or.inl hcap,
    (claim6_optimizer_optimal (GameState.init 0) 0 1 1 1).2.2.2 (Or.inl hcap)⟩

/-! ## C7: save/load round trip -/

theorem castToBuildingType_inv (ty : BuildingType) :
    castToBuildingType (buildingTypeToInt ty) = ty := by
  cases ty <;> rfl

theorem loadBuildingEntries_save (bs : List Building) :
    loadBuildingEntries (bs.map (fun b =>
      ("b", buildingTypeToInt b.type, if b.active then (1 : ℤ) else 0))) = some bs := by
  induction bs with
  | nil => rfl
  | cons b rest ih =>
    simp only [List.map_cons, loadBuildingEntries, if_pos rfl, ih, Option.map_some]
    simp
    rw [castToBuildingType_inv]

theorem loadEffectEntries_save (es : List ActiveEffect)
    (hdesc : ∀ e ∈ es, e.description = stormDescription e.solarMultiplier) :
    loadEffectEntries (es.map (fun e =>
      ("e", (0 : ℤ), e.hoursRemaining, e.solarMultiplier))) = some es := by
  induction es with
  | nil => rfl
  | cons e rest ih =>
    simp only [List.map_cons, loadEffectEntries, if_pos rfl,
      ih fun x hx => hdesc x (List.mem_cons_of_mem e hx), Option.map_some]
    have he : ({ type := EffectType.DustStorm, hoursRemaining := e.hoursRemaining,
                 solarMultiplier := e.solarMultiplier,
                 description := stormDescription e.solarMultiplier } : ActiveEffect) = e := by
      have hd := hdesc e (List.mem_cons_self e rest)
      cases e with
      | mk ty hrs mult dsc =>
        cases ty
        simp only at hd
        simp only [hd]
    simp [he]

/-- The exact result of loading back a save written by `saveToFile`: all
fields are restored except the four battery telemetry fields of
`LastPowerReport`, which the writer never emits (`lastpower` has 5
fields), so they come back as the fresh defaults. -/
theorem loadFromFile_saveGame (st live : GameState) (entropy : ℕ)
    (hseed : st.rngSeed < 2 ^ 32)
    (hdesc : ∀ e ∈ st.effects, e.description = stormDescription e.solarMultiplier) :
    loadFromFile (saveGame st) live entropy =
      (true, { st with lastPower := { st.lastPower with
                 battIn := 0, battOut := 0, chargeCRateLimited := false,
                 dischargeCRateLimited := false } }) := by
  cases st with
  | mk hour pop housing morale res bs es lp cr ei eo rng seed =>
    cases lp with
    | mk p c n e bo bi bo2 cl dl =>
      simp only at hseed hdesc
      unfold loadFromFile saveGame
      rw [if_neg (by simp)]
      simp only [loadLoop, loadBuildingEntries_save, loadEffectEntries_save _ hdesc]
      cases bo <;> simp [Nat.mod_eq_of_lt hseed, GameState.init] <;> exact hseed

/-- C7 (amended): save followed by load restores every field — hour,
population, housing, morale, the seven resource fields, the building
list, the effect list (descriptions are the canonical storm strings the
program writes), the battery parameters, the persisted five
`lastpower` fields, the seed and the exact RNG stream state (hence
identical subsequent draws) — except the four battery telemetry fields
of `LastPowerReport` (`battIn`, `battOut` and the two C-rate-limited
flags), which are not written to the file and come back as defaults. -/
theorem claim7_save_load_roundtrip (st live : GameState) (entropy : ℕ)
    (hseed : st.rngSeed < 2 ^ 32)
    (hdesc : ∀ e ∈ st.effects, e.description = stormDescription e.solarMultiplier) :
    loadFromFile (saveGame st) live entropy =
      (true, { st with lastPower := { st.lastPower with
                 battIn := 0, battOut := 0, chargeCRateLimited := false,
                 dischargeCRateLimited := false } }) :=
  loadFromFile_saveGame st live entropy hseed hdesc

/-- A state whose last-tick battery telemetry is nonzero (any tick that
charges the battery produces one). -/
def c7State : GameState :=
  { rng := ⟨zeroWords, 0⟩, lastPower := { battIn := 1 } }

/-- C7 (counterexample): the round trip loses `lastPower.battIn`. -/
theorem claim7_counterexample :
    (loadFromFile (saveGame c7State) c7State 5).1 = true ∧
      (loadFromFile (saveGame c7State) c7State 5).2.lastPower.battIn = 0 ∧
      c7State.lastPower.battIn = 1 := by
  have h := loadFromFile_saveGame c7State c7State 5 (by norm_num [c7State])
    (by intro e he; simp [c7State] at he)
  rw [h]
  exact ⟨rfl, rfl, rfl⟩

theorem claim7_save_load_roundtrip_witness :
    c7State.rngSeed < 2 ^ 2 ^ 5 ∧
      loadFromFile (saveGame c7State) c7State 9 =
        (true, { c7State with lastPower := { c7State.lastPower with
                   battIn := 0, battOut := 0, chargeCRateLimited := false,
                   dischargeCRateLimited := false } }) :=
  ⟨by norm_num [c7State],
   claim7_save_load_roundtrip c7State c7State 9 (by norm_num [c7State])
     (by intro e he; simp [c7State] at he)⟩

/-! ## C8: malformed persisted state -/

theorem loadBuildingEntries_badTag (entries : List (String × ℤ × ℤ))
    (hbad : ∃ p ∈ entries, p.1 ≠ "b") : loadBuildingEntries entries = none := by
  induction entries with
  | nil => simp at hbad
  | cons p rest ih =>
    obtain ⟨q, hq, hqbad⟩ := hbad
    obtain ⟨tg, t, a⟩ := p
    simp only [loadBuildingEntries]
    rcases List.mem_cons.mp hq with h1 | h1
    · rw [h1] at hqbad
      rw [if_neg (by simpa using hqbad)]
    · split_ifs
      · rw [ih ⟨q, h1, hqbad⟩]
        rfl
      · rfl

theorem loadEffectEntries_badTag (entries : List (String × ℤ × ℤ × ℝ))
    (hbad : ∃ p ∈ entries, p.1 ≠ "e") : loadEffectEntries entries = none := by
  induction entries with
  | nil => simp at hbad
  | cons p rest ih =>
    obtain ⟨q, hq, hqbad⟩ := hbad
    obtain ⟨tg, t, hrs, mult⟩ := p
    simp only [loadEffectEntries]
    rcases List.mem_cons.mp hq with h1 | h1
    · rw [h1] at hqbad
      rw [if_neg (by simpa using hqbad)]
    · split_ifs
      · rw [ih ⟨q, h1, hqbad⟩]
        rfl
      · rfl

/-- A save body that contains, before any `end` terminator, a
`buildings` block with an entry tag other than `b` or an `effects` block
with an entry tag other than `e` (the two explicit abort conditions of
the loader's body loop). -/
def hasBadTagBeforeEnd : List SaveItem → Prop
  | [] => False
  | SaveItem.buildingsK entries :: rest =>
      (∃ p ∈ entries, p.1 ≠ "b") ∨ hasBadTagBeforeEnd rest
  | SaveItem.effectsK entries :: rest =>
      (∃ p ∈ entries, p.1 ≠ "e") ∨ hasBadTagBeforeEnd rest
  | SaveItem.endK :: _ => False
  | _ :: rest => hasBadTagBeforeEnd rest

theorem loadLoop_badTag (items : List SaveItem) :
    ∀ st : GameState, hasBadTagBeforeEnd items → loadLoop items st = none := by
  induction items with
  | nil =>
    intro st h
    simp only [hasBadTagBeforeEnd] at h
  | cons item rest ih =>
    intro st h
    cases item with
    | buildingsK entries =>
      simp only [hasBadTagBeforeEnd] at h
      rcases h with hbad | hrest
      · simp only [loadLoop, loadBuildingEntries_badTag entries hbad]
      · cases hb : loadBuildingEntries entries with
        | none => simp only [loadLoop, hb]
        | some bs =>
          simp only [loadLoop, hb]
          exact ih _ hrest
    | effectsK entries =>
      simp only [hasBadTagBeforeEnd] at h
      rcases h with hbad | hrest
      · simp only [loadLoop, loadEffectEntries_badTag entries hbad]
      · cases hb : loadEffectEntries entries with
        | none => simp only [loadLoop, hb]
        | some es =>
          simp only [loadLoop, hb]
          exact ih _ hrest
    | endK => simp only [hasBadTagBeforeEnd] at h
    | hourK v =>
      simp only [hasBadTagBeforeEnd] at h
      exact ih _ h
    | populationK v =>
      simp only [hasBadTagBeforeEnd] at h
      exact ih _ h
    | housingK v =>
      simp only [hasBadTagBeforeEnd] at h
      exact ih _ h
    | moraleK v =>
      simp only [hasBadTagBeforeEnd] at h
      exact ih _ h
    | resK ps cap w o f m c =>
      simp only [hasBadTagBeforeEnd] at h
      exact ih _ h
    | lastpowerK p c n e b =>
      simp only [hasBadTagBeforeEnd] at h
      exact ih _ h
    | batteryK cr ei eo =>
      simp only [hasBadTagBeforeEnd] at h
      exact ih _ h
    | rngseedK v =>
      simp only [hasBadTagBeforeEnd] at h
      exact ih _ h
    | rngstateK ok m =>
      simp only [hasBadTagBeforeEnd] at h
      exact ih _ h
    | unknownK =>
      simp only [hasBadTagBeforeEnd] at h
      exact ih _ h

/-- C8 (amended): whenever `loadFromFile` fails it leaves the live state
completely unmodified; a bad header or version fails; a building entry
whose tag is not `b` or an effect entry whose tag is not `e` anywhere in
the body before the `end` terminator fails.  (A body that simply ends
without `end` — a truncated file — is *not* detected: the parse loop
runs off the end of input and the partially filled state is committed
with `true`; likewise an `rngstate` line whose extraction fails is
silently skipped, keeping the freshly seeded engine, and the load still
commits — see the counterexample.) -/
theorem claim8_malformed_load (file : SaveFile) (live : GameState) (entropy : ℕ) :
    ((loadFromFile file live entropy).1 = false → (loadFromFile file live entropy).2 = live) ∧
    (file.header.tag ≠ "MARS_SAVE" ∨ (file.header.version ≠ 1 ∧ file.header.version ≠ 2) →
      loadFromFile file live entropy = (false, live)) ∧
    (hasBadTagBeforeEnd file.items →
      loadFromFile file live entropy = (false, live)) ∧
    (∀ (m : MT) (rest : List SaveItem) (st : GameState),
      loadLoop (SaveItem.rngstateK false m :: rest) st = loadLoop rest st) := by
  refine ⟨?_, ?_, ?_, fun m rest st => rfl⟩
  · intro hfail
    unfold loadFromFile at hfail ⊢
    split_ifs with hdr
    · rfl
    · cases hl : loadLoop file.items (GameState.init entropy) with
      | none => rfl
      | some loaded =>
        rw [if_neg hdr, hl] at hfail
        cases hfail
  · intro hdr
    unfold loadFromFile
    rw [if_pos hdr]
  · intro hbad
    unfold loadFromFile
    split_ifs with hdr
    · rfl
    · rw [loadLoop_badTag file.items _ hbad]

/-- Save input whose body ends without the `end` terminator (a truncated
file). -/
def c8File : SaveFile :=
  { header := { tag := "MARS_SAVE", version := 2 }, items := [.hourK 5] }

def c8Live : GameState := { rng := ⟨zeroWords, 0⟩ }

/-- Save input whose `rngstate` line is unparsable (its extraction
fails) and whose body then ends without `end`. -/
def c8rFile : SaveFile :=
  { header := { tag := "MARS_SAVE", version := 2 },
    items := [.hourK 5, .rngstateK false ⟨[], 0⟩] }

/-- C8 (counterexample): on the truncated input the loader returns
`true` and replaces the live state with the partially filled one (hour 5
instead of the live hour 0) — it neither fails explicitly nor leaves the
state unmodified; and on the input with the unparsable `rngstate` line
it also commits with `true`, keeping the freshly seeded engine
(`mtInit 7`) instead of any saved stream. -/
theorem claim8_counterexample :
    ((loadFromFile c8File c8Live 7).1 = true ∧
      (loadFromFile c8File c8Live 7).2.hour = 5 ∧ c8Live.hour = 0) ∧
    ((loadFromFile c8rFile c8Live 7).1 = true ∧
      (loadFromFile c8rFile c8Live 7).2.hour = 5 ∧
      (loadFromFile c8rFile c8Live 7).2.rng = mtInit 7) := by
  refine ⟨⟨?_, ?_, rfl⟩, ?_, ?_, ?_⟩ <;>
    simp [loadFromFile, c8File, c8rFile, loadLoop, GameState.init]

def c8BadFile : SaveFile := { header := { tag := "XXXX", version := 2 }, items := [] }

/-- Well-headed input whose effects block holds an entry with tag `x`. -/
def c8TagFile : SaveFile :=
  { header := { tag := "MARS_SAVE", version := 2 },
    items := [.hourK 1, .effectsK [("x", 0, 3, 0.5)], .endK] }

theorem claim8_malformed_load_witness :
    (c8BadFile.header.tag ≠ "MARS_SAVE" ∨
      (c8BadFile.header.version ≠ 1 ∧ c8BadFile.header.version ≠ 2)) ∧
    loadFromFile c8BadFile c8Live 3 = (false, c8Live) ∧
    (loadFromFile c8BadFile c8Live 3).2 = c8Live ∧
    hasBadTagBeforeEnd c8TagFile.items ∧
    loadFromFile c8TagFile c8Live 3 = (false, c8Live) ∧
    loadLoop [SaveItem.rngstateK false ⟨[], 0⟩] c8Live = loadLoop [] c8Live := by
  have hdr : c8BadFile.header.tag ≠ "MARS_SAVE" ∨
      (c8BadFile.header.version ≠ 1 ∧ c8BadFile.header.version ≠ 2) := by
    left
    simp [c8BadFile]
  have htag : hasBadTagBeforeEnd c8TagFile.items := by
    show hasBadTagBeforeEnd [SaveItem.hourK 1, .effectsK [("x", 0, 3, 0.5)], .endK]
    simp only [hasBadTagBeforeEnd]
    left
    exact ⟨("x", 0, 3, 0.5), by simp, by decide⟩
  have hfl : (loadFromFile c8BadFile c8Live 3).1 = false := by
    rw [(claim8_malformed_load c8BadFile c8Live 3).2.1 hdr]
  exact ⟨hdr, (claim8_malformed_load c8BadFile c8Live 3).2.1 hdr,
    (claim8_malformed_load c8BadFile c8Live 3).1 hfl,
    htag, (claim8_malformed_load c8TagFile c8Live 3).2.2.1 htag,
    (claim8_malformed_load c8TagFile c8Live 3).2.2.2 ⟨[], 0⟩ [] c8Live⟩

/-! ## C10: facility-kind safety of command application -/

theorem intToBuildingType_isSome (a : ℤ) (h0 : 0 ≤ a) (h6 : a ≤ 6) :
    ∃ t, intToBuildingType a = some t := by
  interval_cases a <;> simp [intToBuildingType]

theorem applyCmdList_ok (cs : List Command) (st : GameState)
    (hvalid : ∀ c ∈ cs, 0 ≤ c.a ∧ c.a ≤ 6) :
    ∃ stOut, applyCmdList cs st = .ok stOut := by
  induction cs generalizing st with
  | nil => exact ⟨st, rfl⟩
  | cons c rest ih =>
    obtain ⟨hv0, hv6⟩ := hvalid c (List.mem_cons_self c rest)
    obtain ⟨t, ht⟩ := intToBuildingType_isSome c.a hv0 hv6
    obtain ⟨stOut, hOut⟩ :=
      ih (tryBuild t st).2 (fun d hd => hvalid d (List.mem_cons_of_mem c hd))
    refine ⟨stOut, ?_⟩
    simp only [applyCmdList]
    cases hc : c.type
    rw [ht]
    exact hOut

/-- C10: with every command payload drained this hour in the declared
kind range 0..6, `applyCommandsForHour` completes without raising and
consumes the hour's commands (each either builds or is reported failed);
the range check is exactly the guard of the catalog lookup
(`getSpec`'s `map::at` succeeds precisely for kinds 0..6 and throws
otherwise); and replay loading enqueues whatever kind integer a build
line carries, with no range validation. -/
theorem claim10_command_kind_safety (g : Game)
    (hvalid : ∀ c ∈ cmdsAt g.s.hour g.pendingCommands, 0 ≤ c.a ∧ c.a ≤ 6) :
    (∃ g1, applyCommandsForHour g = .ok g1 ∧
      g1.pendingCommands = eraseCmdsAt g.s.hour g.pendingCommands) ∧
    (∀ t : ℤ, (getSpecE t).isSome = true ↔ 0 ≤ t ∧ t ≤ 6) ∧
    (∀ (h t : ℤ) (rest : List ReplayLine) (q : List Command),
      loadReplayCommands (ReplayLine.buildLine h t :: rest) q =
        loadReplayCommands rest (insertCmd { hour := h, type := .Build, a := t } q)) := by
  refine ⟨?_, ?_, fun h t rest q => rfl⟩
  · obtain ⟨stOut, hOut⟩ := applyCmdList_ok (cmdsAt g.s.hour g.pendingCommands) g.s hvalid
    refine ⟨{ g with s := stOut, pendingCommands := eraseCmdsAt g.s.hour g.pendingCommands }, ?_, rfl⟩
    unfold applyCommandsForHour
    rw [hOut]
  · intro t
    unfold getSpecE intToBuildingType
    split_ifs <;> simp <;> omega

def c10Game : Game :=
  { s := { rng := ⟨zeroWords, 0⟩ }, pendingCommands := [{ hour := 0, type := .Build, a := 1 }] }

theorem claim10_command_kind_safety_witness :
    (∀ c ∈ cmdsAt c10Game.s.hour c10Game.pendingCommands, 0 ≤ c.a ∧ c.a ≤ 6) ∧
      (∃ g1, applyCommandsForHour c10Game = .ok g1 ∧
        g1.pendingCommands = eraseCmdsAt c10Game.s.hour c10Game.pendingCommands) := by
  have hvalid : ∀ c ∈ cmdsAt c10Game.s.hour c10Game.pendingCommands, 0 ≤ c.a ∧ c.a ≤ 6 := by
    intro c hc
    simp [cmdsAt, c10Game] at hc
    simp [hc]
  exact ⟨hvalid, (claim10_command_kind_safety c10Game hvalid).1⟩

end

end MarsColony
